import Mathlib

/-!
Verification development for the event-driven dumbbell gas simulator
(`simulation.h` / `simulation.cpp`).

The development embeds the parts of the simulator that the properties below
are about:

* the gate admission / departure / explosion protocol
  (`Simulation::check_gate_admission`, `Simulation::check_gate_departure`,
  `Simulation::explode_gate`) as a state machine over lists of particle
  indices and 0/1 flag arrays, with the geometric tests (`is_in_gate`,
  `is_going_in`, `is_in_domain`) supplied as per-step observations;
* the precondition checks of `Simulation::start` over exact rationals;
* the planar geometry (`couple_bridge`, `is_in_bridge`, `is_in_circle`,
  `is_in_gate`, `is_in_domain`), the ray-casting kernels
  (`time_to_hit_bridge`, `time_to_hit_circle`, `time_to_hit_gate`,
  `time_to_hit_middle`, `circle_intersections`), reflection
  (`get_reflection_angle`), interpolation (`get_current_position`)
  and the planner (`compute_next_impact`) over the real numbers,
  idealising IEEE doubles as reals and the program constant
  `PI = 3.14159265358979323` as the real number `π`;
* the event scheduler of `Simulation::update` (pop the minimal
  `next_impact_time`, commit the event, replan) as a transition relation.

Where C++ divides by zero the IEEE result is `±inf`/`NaN` and every
comparison guarding an acceptance then fails; in the model division by
zero yields `0` and the same guards fail, so the accepted candidates
agree.  Each definition carries a reference to the source lines it embeds.
-/

namespace Particular

/-! ### Gate protocol state (simulation.cpp:247-295)

`GateSys` collects the gate-related fields of `Simulation`:
`gate_contents[LEFT/RIGHT]` (`left`/`right`), `gate_arrays[LEFT/RIGHT]`
(`flagL`/`flagR`, the `in_left_gate`/`in_right_gate` 0/1 arrays) and
`gate_capacities` (`capL`/`capR`, integers stored by the source in a
vector of doubles; integer-valued doubles compare exactly, so `ℤ` is
faithful).  Sides are booleans: `false = LEFT (0)`, `true = RIGHT (1)`. -/

structure GateSys where
  left : List ℕ
  right : List ℕ
  flagL : ℕ → ℕ
  flagR : ℕ → ℕ
  capL : ℤ
  capR : ℤ

def GateSys.contents (st : GateSys) (s : Bool) : List ℕ :=
  if s then st.right else st.left

def GateSys.flags (st : GateSys) (s : Bool) : ℕ → ℕ :=
  if s then st.flagR else st.flagL

def GateSys.caps (st : GateSys) (s : Bool) : ℤ :=
  if s then st.capR else st.capL

def GateSys.setContents (st : GateSys) (s : Bool) (l : List ℕ) : GateSys :=
  if s then { st with right := l } else { st with left := l }

def GateSys.setFlag (st : GateSys) (s : Bool) (i : ℕ) (v : ℕ) : GateSys :=
  if s then { st with flagR := fun j => if j = i then v else st.flagR j }
  else { st with flagL := fun j => if j = i then v else st.flagL j }

/-- Per-event observations of the geometric tests, one value for each of the
two iterations of the direction loop in `Simulation::update`
(simulation.cpp:172-178): `inG s` is `is_in_gate(px, py, s)`, `going s` is
`is_going_in(particle)` at the time side `s` is processed (`explode_gate`
can change the trigger particle's direction between the two iterations),
and `keep s p` records, for a resident `p` of gate `s` during an
explosion, whether the body of the loop in `explode_gate`
(simulation.cpp:274-294) retains `p` in `gate_contents[s]`, i.e.
`not is_in_domain(x, y) or is_in_gate(x, y, s)` at `p`'s interpolated
position. -/
structure GateObs where
  inG : Bool → Bool
  going : Bool → Bool
  keep : Bool → ℕ → Bool

/-- Gate-visible effect of `Simulation::explode_gate`
(simulation.cpp:269-295): residents whose interpolated position is in the
domain but no longer in gate `s` are erased from `gate_contents[s]`;
no flag in `gate_arrays` is written anywhere in `explode_gate`, and
nothing is ever appended to `gate_contents`.  (The source erases from the
vector while range-iterating over it; every traversal of that loop only
erases, which is all the theorems below use.) -/
def explodeGate (o : GateObs) (s : Bool) (st : GateSys) : GateSys :=
  st.setContents s ((st.contents s).filter (o.keep s))

/-- `Simulation::check_gate_admission` (simulation.cpp:247-257): a particle
with a clear flag is admitted when `size > capacity - 1` fails, otherwise
the gate explodes. -/
def checkGateAdmission (o : GateObs) (s : Bool) (i : ℕ) (st : GateSys) : GateSys :=
  if st.flags s i = 0 then
    if ((st.contents s).length : ℤ) > st.caps s - 1 then
      explodeGate o s st
    else
      (st.setContents s (st.contents s ++ [i])).setFlag s i 1
  else st

/-- `Simulation::check_gate_departure` (simulation.cpp:259-267): a flagged
particle is erased (all occurrences, as `std::remove` does) and its flag
cleared. -/
def checkGateDeparture (s : Bool) (i : ℕ) (st : GateSys) : GateSys :=
  if st.flags s i = 1 then
    (st.setContents s ((st.contents s).filter (fun p => p != i))).setFlag s i 0
  else st

/-- One iteration of the direction loop in `Simulation::update`
(simulation.cpp:172-178). -/
def gateSideStep (o : GateObs) (i : ℕ) (s : Bool) (st : GateSys) : GateSys :=
  if o.inG s && o.going s then checkGateAdmission o s i st
  else checkGateDeparture s i st

/-- The complete gate block of one `Simulation::update`: the direction loop
runs `direction = 0 (LEFT)` then `direction = 1 (RIGHT)`. -/
def gateUpdate (o : GateObs) (i : ℕ) (st : GateSys) : GateSys :=
  gateSideStep o i true (gateSideStep o i false st)

/-- Gate state after `Simulation::setup` and `Simulation::start`: both
content lists empty, all flags zero (vectors are value-initialised by
`resize`), capacities as configured.  `start` never touches the gate
fields (`reset_particle` rejects positions inside a gate). -/
def initGateSys (cL cR : ℤ) : GateSys :=
  ⟨[], [], fun _ => 0, fun _ => 0, cL, cR⟩

/-- Gate states reachable at `update` boundaries: the initial state after
`start`, followed by any number of per-update gate blocks. -/
inductive GateReach : GateSys → Prop
  | init (cL cR : ℤ) : GateReach (initGateSys cL cR)
  | step {st : GateSys} (o : GateObs) (i : ℕ) :
      GateReach st → GateReach (gateUpdate o i st)

/-- Invariant (I3)/(P3): each gate holds at most its capacity. -/
def GateCapInv (st : GateSys) : Prop :=
  ∀ s, ((st.contents s).length : ℤ) ≤ st.caps s

/-- The membership half of invariant (I4): every particle listed in
`gate_contents[s]` has its `gate_arrays[s]` flag set. -/
def GateMemInv (st : GateSys) : Prop :=
  ∀ s i, i ∈ st.contents s → st.flags s i = 1

/-! ### Precondition checks of `Simulation::start` (simulation.cpp:102-132)

Exact-rational model of the three `throw` sites.  `box_y_radius` equals
`circle_radius` (simulation.cpp:110), so the first check is
`bridge_height / 2 >= circle_radius`. -/

inductive StartError
  | bridgeTooHigh
  | ratioOutOfRange
  | channelFlagConflict
deriving DecidableEq

/-- The error, if any, thrown by `Simulation::start(left_ratio)`; arguments
are `num_particles`, `circle_radius`, `bridge_height`, `left_ratio`,
`distance_as_channel_length`, `gate_is_flat`. -/
def startError (n : ℕ) (R h lr : ℚ) (dacl flat : Bool) : Option StartError :=
  if h / 2 ≥ R then some .bridgeTooHigh
  else if lr * n < 0 ∨ lr * n > n then some .ratioOutOfRange
  else if dacl = true ∧ flat = false then some .channelFlagConflict
  else none

/-! ### Geometry over the reals

IEEE doubles are idealised as real numbers; the constant
`PI = 3.14159265358979323` (the closest double to π) is idealised as the
real `π`, and `EPS = 1E-14` is kept exact. -/

open scoped Classical

noncomputable section

/-- `EPS` (simulation.cpp:11). -/
def EPS : ℝ := 1e-14

/-- Configuration fields fixed at `Simulation::setup`: `circle_radius`,
`circle_distance` (the constructor value, before `couple_bridge` mutates
it), `bridge_height`, `gate_is_flat`, `distance_as_channel_length`. -/
structure Geo where
  R : ℝ
  D : ℝ
  h : ℝ
  flat : Bool
  dacl : Bool

/-- The (negative) discrepancy computed by `Simulation::couple_bridge`
(simulation.cpp:390-391): `2·√(R² − h²/4) − 2R`. -/
def discrepancy (g : Geo) : ℝ :=
  2 * Real.sqrt (g.R ^ 2 - g.h ^ 2 / 4) - 2 * g.R

/-- `bridge_length` after `Simulation::couple_bridge`
(simulation.cpp:392-397). -/
def bridgeLength (g : Geo) : ℝ :=
  if g.dacl then g.D else g.D - discrepancy g

/-- `circle_distance` after `Simulation::couple_bridge`
(simulation.cpp:392-397): mutated to `bridge_length + discrepancy` when
`distance_as_channel_length` is set. -/
def circleDistance (g : Geo) : ℝ :=
  if g.dacl then g.D + discrepancy g else g.D

/-- `left_center_x = -circle_distance/2 - circle_radius`
(simulation.cpp:52). -/
def leftCenterX (g : Geo) : ℝ := -circleDistance g / 2 - g.R

/-- `right_center_x = circle_distance/2 + circle_radius`
(simulation.cpp:53). -/
def rightCenterX (g : Geo) : ℝ := circleDistance g / 2 + g.R

/-- `max_path = circle_distance + bridge_height + circle_radius * 4`
(simulation.cpp:54), computed after `couple_bridge`. -/
def maxPath (g : Geo) : ℝ := circleDistance g + g.h + g.R * 4

/-- `Simulation::is_in_circle` (simulation.cpp:412-418); strict inequality. -/
def isInCircle (g : Geo) (x y : ℝ) (side : Bool) : Prop :=
  if side = false then
    (x - leftCenterX g) * (x - leftCenterX g) + y * y < g.R * g.R
  else
    (x - rightCenterX g) * (x - rightCenterX g) + y * y < g.R * g.R

/-- `Simulation::is_in_bridge` (simulation.cpp:421-426). -/
def isInBridge (g : Geo) (x y : ℝ) : Prop :=
  |x| ≤ bridgeLength g / 2 ∧ |y| ≤ g.h / 2

/-- `Simulation::is_in_domain` (simulation.cpp:400-410). -/
def isInDomain (g : Geo) (x y : ℝ) : Prop :=
  if isInBridge g x y then True
  else if x < 0 then isInCircle g x y false else isInCircle g x y true

/-- `Simulation::is_in_gate` (simulation.cpp:235-241).  The factor
`(int)direction * 2 - 1` is `-1` for `LEFT` and `1` for `RIGHT`. -/
def isInGate (g : Geo) (x y : ℝ) (side : Bool) : Prop :=
  if g.flat then
    ((if side then (1 : ℝ) else 0) * 2 - 1) * x ≥ 0 ∧ |x| ≤ bridgeLength g / 2
  else
    ((if side then (1 : ℝ) else 0) * 2 - 1) * x ≥ 0 ∧ ¬isInCircle g x y side

/-! ### Angles: truncated `fmod`, reflection, `atan2` -/

/-- Truncation toward zero, as C casts and `std::fmod` do. -/
def ctrunc (z : ℝ) : ℤ := if 0 ≤ z then ⌊z⌋ else ⌈z⌉

/-- C `std::fmod x y = x - trunc(x/y) * y` (for `y ≠ 0`; the model extends
it by `cfmod x 0 = x`, a case never exercised since the modulus used is
`2π`). -/
def cfmod (x y : ℝ) : ℝ := x - y * ctrunc (x / y)

/-- `Simulation::get_reflection_angle` (simulation.cpp:590-592):
`fmod(2·normal − angle_in + π, 2π)`. -/
def getReflectionAngle (angleIn normalAngle : ℝ) : ℝ :=
  cfmod (2 * normalAngle - angleIn + Real.pi) (2 * Real.pi)

/-- C `std::atan2 y x`, the argument of the point `(x, y)`, in `(-π, π]`. -/
def atan2 (y x : ℝ) : ℝ := Complex.arg ⟨x, y⟩

/-! ### Ray-casting kernels (simulation.cpp:509-680)

Each kernel shoots the ray `p + t · r` with
`r = max_path · (cos α, sin α)`, `t ∈ (EPS, 1)`.  The locals of each
source function are named definitions. -/

/-- `rx` / `add_x`: `max_path * cos(directions[particle])`. -/
def rayX (g : Geo) (α : ℝ) : ℝ := maxPath g * Real.cos α

/-- `ry` / `add_y`: `max_path * sin(directions[particle])`. -/
def rayY (g : Geo) (α : ℝ) : ℝ := maxPath g * Real.sin α

/-- `denom = rx * sy - ry * sx` in `time_to_hit_bridge`
(simulation.cpp:520) with `s = (bridge_length, 0)`. -/
def bDenom (g : Geo) (α : ℝ) : ℝ := rayX g α * 0 - rayY g α * bridgeLength g

/-- `u1` (simulation.cpp:521), the rail parameter for the bottom rail. -/
def bU1 (g : Geo) (x y α : ℝ) : ℝ :=
  ((-bridgeLength g / 2 - x) * rayY g α - (-g.h / 2 - y) * rayX g α) / bDenom g α

/-- `u2` (simulation.cpp:522), the rail parameter for the top rail. -/
def bU2 (g : Geo) (x y α : ℝ) : ℝ :=
  ((-bridgeLength g / 2 - x) * rayY g α - (g.h / 2 - y) * rayX g α) / bDenom g α

/-- `t1` (simulation.cpp:524), the ray parameter for the bottom rail. -/
def bT1 (g : Geo) (x y α : ℝ) : ℝ :=
  ((-bridgeLength g / 2 - x) * 0 - (-g.h / 2 - y) * bridgeLength g) / bDenom g α

/-- `t2` (simulation.cpp:525), the ray parameter for the top rail. -/
def bT2 (g : Geo) (x y α : ℝ) : ℝ :=
  ((-bridgeLength g / 2 - x) * 0 - (g.h / 2 - y) * bridgeLength g) / bDenom g α

/-- Acceptance test for the bottom rail (simulation.cpp:527): the running
minimum is still `1` at this point. -/
def bCond1 (g : Geo) (x y α : ℝ) : Prop :=
  EPS < bT1 g x y α ∧ bT1 g x y α < 1 ∧ 0 ≤ bU1 g x y α ∧ bU1 g x y α ≤ 1

/-- Acceptance test for the top rail (simulation.cpp:531) against the
running minimum `m1`. -/
def bCond2 (g : Geo) (x y α m1 : ℝ) : Prop :=
  EPS < bT2 g x y α ∧ bT2 g x y α < m1 ∧ 0 ≤ bU2 g x y α ∧ bU2 g x y α ≤ 1

/-- `Simulation::time_to_hit_bridge` (simulation.cpp:509-536).  Returns the
pair (returned time, final value of the in-out parameter `normal_angle`);
`a0` is the value `normal_angle` holds on entry. -/
def timeToHitBridge (g : Geo) (x y α a0 : ℝ) : ℝ × ℝ :=
  let m1 := if bCond1 g x y α then bT1 g x y α - EPS else 1
  let a1 := if bCond1 g x y α then Real.pi / 2 else a0
  ((if bCond2 g x y α m1 then bT2 g x y α - EPS else m1) * maxPath g,
   if bCond2 g x y α m1 then -(Real.pi / 2) else a1)

/-- `t_pos_x = (px - center_x) / circle_radius` (simulation.cpp:541). -/
def qPx (g : Geo) (c x : ℝ) : ℝ := (x - c) / g.R

/-- `t_pos_y = (py - 0) / circle_radius` (simulation.cpp:542). -/
def qPy (g : Geo) (y : ℝ) : ℝ := (y - 0) / g.R

/-- `t_add_x = add_x / circle_radius` (simulation.cpp:543). -/
def qAx (g : Geo) (α : ℝ) : ℝ := rayX g α / g.R

/-- `t_add_y = add_y / circle_radius` (simulation.cpp:544). -/
def qAy (g : Geo) (α : ℝ) : ℝ := rayY g α / g.R

/-- Quadratic coefficient `a` (simulation.cpp:546). -/
def qA (g : Geo) (α : ℝ) : ℝ := qAx g α * qAx g α + qAy g α * qAy g α

/-- Quadratic coefficient `b` (simulation.cpp:547). -/
def qB (g : Geo) (c x y α : ℝ) : ℝ :=
  2 * qPx g c x * qAx g α + 2 * qPy g y * qAy g α

/-- Quadratic coefficient `c` (simulation.cpp:548). -/
def qC (g : Geo) (c x y : ℝ) : ℝ :=
  qPx g c x * qPx g c x + qPy g y * qPy g y - 1

/-- Discriminant `D = b*b - 4*a*c` (simulation.cpp:549). -/
def qD (g : Geo) (c x y α : ℝ) : ℝ :=
  qB g c x y α * qB g c x y α - 4 * qA g α * qC g c x y

/-- Root `(-b - sqrt D) / (2a)` (simulation.cpp:551). -/
def qRoot1 (g : Geo) (c x y α : ℝ) : ℝ :=
  (-qB g c x y α - Real.sqrt (qD g c x y α)) / (2 * qA g α)

/-- Root `(-b + sqrt D) / (2a)` (simulation.cpp:552). -/
def qRoot2 (g : Geo) (c x y α : ℝ) : ℝ :=
  (-qB g c x y α + Real.sqrt (qD g c x y α)) / (2 * qA g α)

/-- `Simulation::circle_intersections` (simulation.cpp:538-554): the in-out
parameters `t1`, `t2` (entry values `t01`, `t02`) are overwritten only when
the discriminant is non-negative. -/
def circleIntersections (g : Geo) (c x y α t01 t02 : ℝ) : ℝ × ℝ :=
  if 0 ≤ qD g c x y α then (qRoot1 g c x y α, qRoot2 g c x y α) else (t01, t02)

/-- Root acceptance test in `time_to_hit_circle` (simulation.cpp:569-573
and 578-582): parameter in `(EPS, m)` and impact point not inside the
bridge rectangle. -/
def cCond (g : Geo) (x y α t m : ℝ) : Prop :=
  (EPS < t ∧ t < m) ∧ ¬isInBridge g (x + t * rayX g α) (y + t * rayY g α)

/-- `Simulation::time_to_hit_circle` (simulation.cpp:556-588).  Returns
(returned time, final value of the in-out `normal_angle` whose entry value
is `a0`).  A root is only a hit if the impact point is not inside the
bridge rectangle. -/
def timeToHitCircle (g : Geo) (c x y α a0 : ℝ) : ℝ × ℝ :=
  let t1 := (circleIntersections g c x y α (-1) (-1)).1
  let t2 := (circleIntersections g c x y α (-1) (-1)).2
  let m1 := if cCond g x y α t1 1 then t1 - EPS else 1
  let a1 := if cCond g x y α t1 1 then
    atan2 (0 - (y + t1 * rayY g α)) (c - (x + t1 * rayX g α)) else a0
  ((if cCond g x y α t2 m1 then t2 - EPS else m1) * maxPath g,
   if cCond g x y α t2 m1 then
     atan2 (0 - (y + t2 * rayY g α)) (c - (x + t2 * rayX g α)) else a1)

/-- `to_left_gate = (-bridge_length/2 - px) / cos(direction)`
(simulation.cpp:616). -/
def gateTL (g : Geo) (x α : ℝ) : ℝ := (-bridgeLength g / 2 - x) / Real.cos α

/-- `to_right_gate = (bridge_length/2 - px) / cos(direction)`
(simulation.cpp:617). -/
def gateTR (g : Geo) (x α : ℝ) : ℝ := (bridgeLength g / 2 - x) / Real.cos α

/-- Acceptance test for a flat-gate plane time (simulation.cpp:618-623):
strictly positive and below the running minimum. -/
def fCond (t m : ℝ) : Prop := t > 0 ∧ t < m

/-- Root acceptance test in the arc branch of `time_to_hit_gate`
(simulation.cpp:639-654): parameter in `(EPS, m)` and impact point inside
the bridge rectangle. -/
def gCond (g : Geo) (x y α t m : ℝ) : Prop :=
  (EPS < t ∧ t < m) ∧ isInBridge g (x + t * rayX g α) (y + t * rayY g α)

/-- `Simulation::time_to_hit_gate` (simulation.cpp:607-659).  In the arc
branch the locals `t1`, `t2` are declared once before the two-sided loop,
so the second (RIGHT) iteration reuses the LEFT iteration's roots when its
own discriminant is negative. -/
def timeToHitGate (g : Geo) (x y α : ℝ) : ℝ :=
  if g.flat then
    let m1 := if fCond (gateTL g x α) (maxPath g) then gateTL g x α
      else maxPath g
    if fCond (gateTR g x α) m1 then gateTR g x α else m1
  else
    let tL1 := (circleIntersections g (leftCenterX g) x y α (-1) (-1)).1
    let tL2 := (circleIntersections g (leftCenterX g) x y α (-1) (-1)).2
    let mA := if gCond g x y α tL1 1 then tL1 else 1
    let mB := if gCond g x y α tL2 mA then tL2 else mA
    let tR1 := (circleIntersections g (rightCenterX g) x y α tL1 tL2).1
    let tR2 := (circleIntersections g (rightCenterX g) x y α tL1 tL2).2
    let mC := if gCond g x y α tR1 mB then tR1 else mB
    (if gCond g x y α tR2 mC then tR2 else mC) * maxPath g

/-- `denum = 1 / (rx * sy - ry * sx)` in `time_to_hit_middle`
(simulation.cpp:672) with `s = (0, bridge_height)`. -/
def mDenum (g : Geo) (α : ℝ) : ℝ :=
  1 / (rayX g α * g.h - rayY g α * 0)

/-- `u` (simulation.cpp:673). -/
def mU (g : Geo) (x y α : ℝ) : ℝ :=
  ((0 - x) * rayY g α - (-g.h / 2 - y) * rayX g α) * mDenum g α

/-- `t` (simulation.cpp:675). -/
def mT (g : Geo) (x y α : ℝ) : ℝ :=
  ((0 - x) * g.h - (-g.h / 2 - y) * 0) * mDenum g α

/-- Acceptance test in `time_to_hit_middle` (simulation.cpp:676). -/
def mCond (g : Geo) (x y α : ℝ) : Prop :=
  EPS < mT g x y α ∧ mT g x y α < 1 ∧ 0 ≤ mU g x y α ∧ mU g x y α ≤ 1

/-- `Simulation::time_to_hit_middle` (simulation.cpp:661-680).  The
accepted parameter is biased `+EPS` already inside the kernel, and the
result is scaled by `max_path`. -/
def timeToHitMiddle (g : Geo) (x y α : ℝ) : ℝ :=
  (if mCond g x y α then mT g x y α + EPS else 1) * maxPath g

/-- The candidate fold of `Simulation::compute_next_impact`
(simulation.cpp:443-474): `next_time` and `next_angle` after examining the
five candidates in source order (bridge, left circle, right circle, gate,
middle).  The uninitialised local `angle` is modelled as `0` (the source
reads it only after the corresponding kernel has written it), and
`next_angle` is initialised to `0` (simulation.cpp:444). -/
def nextCandidate (g : Geo) (x y α : ℝ) : ℝ × ℝ :=
  let M := maxPath g
  let bres := timeToHitBridge g x y α 0
  let nt1 := if bres.1 < M then bres.1 else M
  let na1 := if bres.1 < M then getReflectionAngle α bres.2 else 0
  let lres := timeToHitCircle g (leftCenterX g) x y α bres.2
  let nt2 := if lres.1 < nt1 then lres.1 else nt1
  let na2 := if lres.1 < nt1 then getReflectionAngle α lres.2 else na1
  let rres := timeToHitCircle g (rightCenterX g) x y α lres.2
  let nt3 := if rres.1 < nt2 then rres.1 else nt2
  let na3 := if rres.1 < nt2 then getReflectionAngle α rres.2 else na2
  let tg := timeToHitGate g x y α
  let nt4 := if tg < nt3 then tg + EPS else nt3
  let na4 := if tg < nt3 then α else na3
  let tm := timeToHitMiddle g x y α
  let nt5 := if tm < nt4 then tm + EPS else nt4
  let na5 := if tm < nt4 then α else na4
  (nt5, na5)

/-- `Simulation::compute_next_impact` (simulation.cpp:428-492) for one
particle at position `(x, y)`, direction `α`, current simulation time
`time`.  Returns `none` in the `next_time == max_path` degenerate branch
(where the source resets the particle with fresh randomness), otherwise
`some (next_x_pos, next_y_pos, next_impact_time, next_direction)`
(simulation.cpp:486-491). -/
def computeNextImpact (g : Geo) (x y α time : ℝ) :
    Option (ℝ × ℝ × ℝ × ℝ) :=
  if (nextCandidate g x y α).1 = maxPath g then none
  else some (x + (nextCandidate g x y α).1 * Real.cos α,
    y + (nextCandidate g x y α).1 * Real.sin α,
    time + (nextCandidate g x y α).1, (nextCandidate g x y α).2)

/-- `Simulation::get_current_position` (simulation.cpp:494-507):
interpolation of the position at the current `time`, guarded by the
equality test `impact_times[particle] == next_impact_times[particle]`. -/
def getCurrentPosition (time impactT nextT x y nx ny : ℝ) : ℝ × ℝ :=
  if impactT = nextT then (x, y)
  else
    (x + (nx - x) * (impactT - time) / (impactT - nextT),
     y + (ny - y) * (impactT - time) / (impactT - nextT))

/-! ### The stray-particle repair in `Simulation::update`
(simulation.cpp:148-153)

The source computes `sgn(next_x_pos)` where `next_x_pos` is the whole
`std::vector<double>` (the `[particle]` subscript is missing), so the
template `sgn` is instantiated at `std::vector<double>`, comparing the
vector lexicographically against a default-constructed empty vector. -/

/-- C++ `operator<` on `std::vector<double>`: lexicographic comparison. -/
def vecLt : List ℝ → List ℝ → Prop
  | _, [] => False
  | [], _ :: _ => True
  | a :: as, b :: bs => a < b ∨ (a = b ∧ vecLt as bs)

/-- The template `sgn` (simulation.cpp:15-18) instantiated at
`std::vector<double>`: `(T(0) < val) - (val < T(0))` with `T(0)` the empty
vector. -/
def sgnVec (v : List ℝ) : ℤ :=
  (if vecLt [] v then 1 else 0) - (if vecLt v [] then 1 else 0)

/-- The repair branch of `Simulation::update` (simulation.cpp:149-153):
if the committed next position of particle `i` is outside the domain, the
source assigns `next_x_pos[particle] = sgn(next_x_pos) * (circle_distance
/ 2 + circle_radius)` and `next_y_pos[particle] = 0`.  `nxs`/`nys` are the
whole `next_x_pos`/`next_y_pos` vectors. -/
def snapRepair (g : Geo) (nxs nys : List ℝ) (i : ℕ) : ℝ × ℝ :=
  if ¬isInDomain g (nxs.getD i 0) (nys.getD i 0) then
    ((sgnVec nxs : ℝ) * (circleDistance g / 2 + g.R), 0)
  else (nxs.getD i 0, nys.getD i 0)

/-! ### Event scheduler of `Simulation::update` (simulation.cpp:134-185)

`SchedStep` captures one `update`: the particle at the front of
`sorted_indices` (which, by invariant (I5), carries the globally minimal
`next_impact_time`) is popped, the global `time` becomes its
`next_impact_time`, and a subset of particles (the popped one, plus every
gate resident replanned by an explosion) receives a new
`next_impact_time = time + d` with travel time `d > 0`, as
`compute_next_impact` produces (see `computeNextImpact_pos`); all other
entries are unchanged. -/

structure Sched (n : ℕ) where
  time : ℝ
  nextT : Fin n → ℝ

def SchedStep {n : ℕ} (s s' : Sched n) : Prop :=
  ∃ i : Fin n,
    (∀ j, s.nextT i ≤ s.nextT j) ∧
    s'.time = s.nextT i ∧
    ∀ j, s'.nextT j = s.nextT j ∨ ∃ d : ℝ, 0 < d ∧ s'.nextT j = s'.time + d

/-- Invariant (I2): every planned event lies at or after the current time. -/
def SchedInv {n : ℕ} (s : Sched n) : Prop :=
  ∀ j, s.time ≤ s.nextT j

/-! ### Concrete instances used by the individual verdicts -/

/-- The test-suite geometry (`test_simulation.cpp`): `circle_radius = 1`,
`circle_distance = 0.5`, `bridge_height = 0.1`, arc gate, no bridge
correction. -/
def g0 : Geo := ⟨1, 1 / 2, 1 / 10, false, false⟩

/-- Same geometry with a flat gate. -/
def gF : Geo := ⟨1, 1 / 2, 1 / 10, true, false⟩

/-- Observations of an update in which the moving particle is inside the
left gate heading inward, and any explosion retains all residents. -/
def obsEnter : GateObs := ⟨fun s => !s, fun _ => true, fun _ _ => true⟩

/-- Observations of an update in which the moving particle is inside the
left gate heading inward and the triggered explosion finds every resident
inside the domain but outside the gate (so the explosion loop erases each
resident from `gate_contents`). -/
def obsBoom : GateObs := ⟨fun s => !s, fun _ => true, fun _ _ => false⟩

/-- Gate state after one update from the initial state with capacities
`1, 1`: particle `0` enters the left gate. -/
def gateSt1 : GateSys := gateUpdate obsEnter 0 (initGateSys 1 1)

/-- Gate state after a second update: particle `1` reaches the full left
gate and triggers an explosion that erases resident `0`, whose
interpolated position has left the gate. -/
def gateSt2 : GateSys := gateUpdate obsBoom 1 gateSt1

end

/-! ## Lemmas: gate protocol -/

lemma contents_setContents (st : GateSys) (s : Bool) (l : List ℕ) (s' : Bool) :
    (st.setContents s l).contents s' = if s' = s then l else st.contents s' := by
  cases s <;> cases s' <;> simp [GateSys.setContents, GateSys.contents]

lemma flags_setContents (st : GateSys) (s : Bool) (l : List ℕ) (s' : Bool) :
    (st.setContents s l).flags s' = st.flags s' := by
  cases s <;> cases s' <;> simp [GateSys.setContents, GateSys.flags]

lemma caps_setContents (st : GateSys) (s : Bool) (l : List ℕ) (s' : Bool) :
    (st.setContents s l).caps s' = st.caps s' := by
  cases s <;> cases s' <;> simp [GateSys.setContents, GateSys.caps]

lemma contents_setFlag (st : GateSys) (s : Bool) (i v : ℕ) (s' : Bool) :
    (st.setFlag s i v).contents s' = st.contents s' := by
  cases s <;> cases s' <;> simp [GateSys.setFlag, GateSys.contents]

lemma caps_setFlag (st : GateSys) (s : Bool) (i v : ℕ) (s' : Bool) :
    (st.setFlag s i v).caps s' = st.caps s' := by
  cases s <;> cases s' <;> simp [GateSys.setFlag, GateSys.caps]

lemma flags_setFlag (st : GateSys) (s : Bool) (i v : ℕ) (s' : Bool) (j : ℕ) :
    (st.setFlag s i v).flags s' j = if s' = s ∧ j = i then v else st.flags s' j := by
  cases s <;> cases s' <;> simp [GateSys.setFlag, GateSys.flags]

lemma caps_explodeGate (o : GateObs) (s : Bool) (st : GateSys) (s' : Bool) :
    (explodeGate o s st).caps s' = st.caps s' := by
  simp [explodeGate, caps_setContents]

lemma caps_checkGateAdmission (o : GateObs) (s : Bool) (i : ℕ) (st : GateSys) (s' : Bool) :
    (checkGateAdmission o s i st).caps s' = st.caps s' := by
  unfold checkGateAdmission
  split_ifs <;> simp [caps_explodeGate, caps_setContents, caps_setFlag]

lemma caps_checkGateDeparture (s : Bool) (i : ℕ) (st : GateSys) (s' : Bool) :
    (checkGateDeparture s i st).caps s' = st.caps s' := by
  unfold checkGateDeparture
  split_ifs <;> simp [caps_setContents, caps_setFlag]

lemma caps_gateSideStep (o : GateObs) (i : ℕ) (s : Bool) (st : GateSys) (s' : Bool) :
    (gateSideStep o i s st).caps s' = st.caps s' := by
  unfold gateSideStep
  split_ifs <;> simp [caps_checkGateAdmission, caps_checkGateDeparture]

lemma caps_gateUpdate (o : GateObs) (i : ℕ) (st : GateSys) (s' : Bool) :
    (gateUpdate o i st).caps s' = st.caps s' := by
  simp [gateUpdate, caps_gateSideStep]

lemma capInv_checkGateAdmission (o : GateObs) (s : Bool) (i : ℕ) (st : GateSys)
    (h : GateCapInv st) : GateCapInv (checkGateAdmission o s i st) := by
  intro s'
  unfold checkGateAdmission
  split_ifs with h1 h2
  · unfold explodeGate
    rw [caps_setContents, contents_setContents]
    split_ifs with hs
    · subst hs
      calc (((st.contents s').filter (o.keep s')).length : ℤ)
          ≤ ((st.contents s').length : ℤ) := by
            exact_mod_cast List.length_filter_le _ _
        _ ≤ st.caps s' := h s'
    · exact h s'
  · rw [caps_setFlag, caps_setContents, contents_setFlag, contents_setContents]
    split_ifs with hs
    · subst hs
      simp only [List.length_append, List.length_cons, List.length_nil]
      push_cast
      omega
    · exact h s'
  · exact h s'

lemma capInv_checkGateDeparture (s : Bool) (i : ℕ) (st : GateSys)
    (h : GateCapInv st) : GateCapInv (checkGateDeparture s i st) := by
  intro s'
  unfold checkGateDeparture
  split_ifs with h1
  · rw [caps_setFlag, caps_setContents, contents_setFlag, contents_setContents]
    split_ifs with hs
    · subst hs
      calc (((st.contents s').filter (fun p => p != i)).length : ℤ)
          ≤ ((st.contents s').length : ℤ) := by
            exact_mod_cast List.length_filter_le _ _
        _ ≤ st.caps s' := h s'
    · exact h s'
  · exact h s'

lemma capInv_gateUpdate (o : GateObs) (i : ℕ) (st : GateSys)
    (h : GateCapInv st) : GateCapInv (gateUpdate o i st) := by
  unfold gateUpdate gateSideStep
  split_ifs <;>
    first
      | exact capInv_checkGateAdmission _ _ _ _ (capInv_checkGateAdmission _ _ _ _ h)
      | exact capInv_checkGateAdmission _ _ _ _ (capInv_checkGateDeparture _ _ _ h)
      | exact capInv_checkGateDeparture _ _ _ (capInv_checkGateAdmission _ _ _ _ h)
      | exact capInv_checkGateDeparture _ _ _ (capInv_checkGateDeparture _ _ _ h)

lemma memInv_checkGateAdmission (o : GateObs) (s : Bool) (i : ℕ) (st : GateSys)
    (h : GateMemInv st) : GateMemInv (checkGateAdmission o s i st) := by
  intro s' j hj
  unfold checkGateAdmission at hj ⊢
  split_ifs at hj ⊢ with h1 h2
  · -- explosion: contents only shrink, flags untouched
    unfold explodeGate at hj ⊢
    rw [flags_setContents]
    rw [contents_setContents] at hj
    split_ifs at hj with hs
    · subst hs
      exact h s' j (List.mem_filter.mp hj).1
    · exact h s' j hj
  · -- admission: j is either the new arrival or an old resident
    rw [contents_setFlag, contents_setContents] at hj
    rw [flags_setFlag, flags_setContents]
    split_ifs at hj with hs
    · subst hs
      rcases List.mem_append.mp hj with hold | hnew
      · by_cases hji : j = i
        · simp [hji]
        · rw [if_neg (by simp [hji])]
          exact h s' j hold
      · have hji : j = i := by simpa using hnew
        simp [hji]
    · rw [if_neg (by simp [hs])]
      exact h s' j hj
  · exact h s' j hj

lemma memInv_checkGateDeparture (s : Bool) (i : ℕ) (st : GateSys)
    (h : GateMemInv st) : GateMemInv (checkGateDeparture s i st) := by
  intro s' j hj
  unfold checkGateDeparture at hj ⊢
  split_ifs at hj ⊢ with h1
  · rw [contents_setFlag, contents_setContents] at hj
    rw [flags_setFlag, flags_setContents]
    split_ifs at hj with hs
    · subst hs
      have hmem := List.mem_filter.mp hj
      have hji : j ≠ i := by simpa using hmem.2
      rw [if_neg (by simp [hji])]
      exact h s' j hmem.1
    · rw [if_neg (by simp [hs])]
      exact h s' j hj
  · exact h s' j hj

lemma memInv_gateUpdate (o : GateObs) (i : ℕ) (st : GateSys)
    (h : GateMemInv st) : GateMemInv (gateUpdate o i st) := by
  unfold gateUpdate gateSideStep
  split_ifs <;>
    first
      | exact memInv_checkGateAdmission _ _ _ _ (memInv_checkGateAdmission _ _ _ _ h)
      | exact memInv_checkGateAdmission _ _ _ _ (memInv_checkGateDeparture _ _ _ h)
      | exact memInv_checkGateDeparture _ _ _ (memInv_checkGateAdmission _ _ _ _ h)
      | exact memInv_checkGateDeparture _ _ _ (memInv_checkGateDeparture _ _ _ h)

/-- C1: at the end of every `update`, each side of the gate holds at most
its capacity (provided the configured capacities are non-negative, as
they are in every run): `check_gate_admission` appends a particle only
when the occupancy is strictly below the capacity, and `explode_gate`
only ever erases from `gate_contents`. -/
theorem gate_capacity_le_cap {st : GateSys} (hr : GateReach st)
    (hL : 0 ≤ st.caps false) (hR : 0 ≤ st.caps true) : GateCapInv st := by
  have key : ∀ {s : GateSys}, GateReach s →
      (0 ≤ s.caps false ∧ 0 ≤ s.caps true) → GateCapInv s := by
    intro s hrs
    induction hrs with
    | init cL cR =>
      rintro ⟨h1, h2⟩ sd
      cases sd <;>
        simpa [initGateSys, GateSys.contents, GateSys.caps] using
          (by assumption : _)
    | step o i hst ih =>
      rintro ⟨h1, h2⟩
      rw [caps_gateUpdate] at h1 h2
      exact capInv_gateUpdate _ _ _ (ih ⟨h1, h2⟩)
  exact key hr ⟨hL, hR⟩

/-- Witness for `gate_capacity_le_cap`: after one update with capacities
`1, 1` in which particle `0` enters the left gate, the left gate holds one
particle, at most its capacity. -/
theorem gate_capacity_le_cap_witness :
    (0 ≤ gateSt1.caps false ∧ 0 ≤ gateSt1.caps true) ∧
      ((gateSt1.contents false).length : ℤ) ≤ gateSt1.caps false :=
  ⟨⟨by decide, by decide⟩,
   gate_capacity_le_cap (GateReach.step obsEnter 0 (GateReach.init 1 1))
     (by decide) (by decide) false⟩

/-- C2 (counterexample): the claimed equivalence `flag = 1 ⇔ membership`
fails after an explosion.  Starting from capacities `1, 1`, particle `0`
enters the left gate; then particle `1` triggers an explosion whose loop
finds resident `0` inside the domain but outside the gate and erases it
from `gate_contents[LEFT]` — without clearing `in_left_gate[0]`
(simulation.cpp:281-286 erases but, unlike `check_gate_departure`, never
writes `gate_arrays`).  The resulting reachable state has
`flags LEFT 0 = 1` yet `0 ∉ gate_contents[LEFT]`. -/
theorem explosion_leaves_flag_set_cex :
    GateReach gateSt2 ∧ gateSt2.flags false 0 = 1 ∧
      0 ∉ gateSt2.contents false :=
  ⟨GateReach.step obsBoom 1 (GateReach.step obsEnter 0 (GateReach.init 1 1)),
   by decide, by decide⟩

/-- C2 (amended): at the end of every `update`, membership in
`gate_contents[s]` implies the side-`s` flag is set; the converse fails
when an explosion removes a resident whose interpolated position has left
the gate, because `explode_gate` erases the resident from the list without
clearing its flag. -/
theorem gate_membership_implies_flag {st : GateSys} (hr : GateReach st) :
    GateMemInv st := by
  induction hr with
  | init cL cR =>
    intro s j hj
    cases s <;> simp [initGateSys, GateSys.contents] at hj
  | step o i hst ih =>
    exact memInv_gateUpdate _ _ _ ih

/-- Witness for `gate_membership_implies_flag`: in the reachable state
after particle `0` enters the left gate, `0` is listed and its flag is
set. -/
theorem gate_membership_implies_flag_witness :
    (0 ∈ gateSt1.contents false) ∧ gateSt1.flags false 0 = 1 :=
  ⟨by decide,
   gate_membership_implies_flag
     (GateReach.step obsEnter 0 (GateReach.init 1 1)) false 0 (by decide)⟩

/-! ## Lemmas: `start` preconditions, reflection, interpolation -/

/-- C6 (amended): `start(left_ratio)` throws precisely when
`bridge_height ≥ 2 · circle_radius`, or `left_ratio · num_particles`
falls outside `[0, num_particles]` (for `num_particles ≥ 1` this is
`left_ratio ∉ [0, 1]`, but for `num_particles = 0` no ratio throws), or
`distance_as_channel_length` is set while the gate is not flat. -/
theorem start_throws_iff (n : ℕ) (R h lr : ℚ) (dacl flat : Bool) :
    (startError n R h lr dacl flat).isSome = true ↔
      (2 * R ≤ h ∨ lr * n < 0 ∨ lr * n > n ∨ (dacl = true ∧ flat = false)) := by
  unfold startError
  split_ifs with h1 h2 h3
  · simp only [Option.isSome_some]
    exact ⟨fun _ => Or.inl (by linarith), fun _ => trivial⟩
  · simp only [Option.isSome_some]
    refine ⟨fun _ => ?_, fun _ => trivial⟩
    rcases h2 with h2 | h2
    · exact Or.inr (Or.inl h2)
    · exact Or.inr (Or.inr (Or.inl h2))
  · simp only [Option.isSome_some]
    exact ⟨fun _ => Or.inr (Or.inr (Or.inr h3)), fun _ => trivial⟩
  · simp only [Option.isSome_none, Bool.false_eq_true, false_iff]
    rintro (hc | hc | hc | hc)
    · exact h1 (by linarith)
    · exact h2 (Or.inl hc)
    · exact h2 (Or.inr hc)
    · exact h3 hc

/-- C6 (counterexample): with `num_particles = 0` the configuration
`left_ratio = 2` is invalid in the claim's sense (`left_ratio ∉ [0, 1]`,
while `h < 2R` and the flag conflict is absent), yet `start` does not
throw, because the source checks `left_ratio * num_particles`, which is
`0` when `num_particles = 0`. -/
theorem start_zero_particles_cex :
    startError 0 1 (1 / 10) 2 false false = none ∧ ((2 : ℚ) > 1) ∧
      ¬((1 : ℚ) / 10 ≥ 2 * 1) := by
  refine ⟨?_, by norm_num, by norm_num⟩
  norm_num [startError]

/-- C7: reflecting twice in the same normal returns the original angle
modulo `2π`: `get_reflection_angle (get_reflection_angle α n) n` differs
from `α` by an integer multiple of `2π`. -/
theorem reflection_involutive_mod (a n : ℝ) :
    ∃ k : ℤ, getReflectionAngle (getReflectionAngle a n) n = a + 2 * Real.pi * k := by
  refine ⟨ctrunc ((2 * n - a + Real.pi) / (2 * Real.pi)) -
    ctrunc ((2 * n - getReflectionAngle a n + Real.pi) / (2 * Real.pi)), ?_⟩
  simp only [getReflectionAngle, cfmod]
  push_cast
  ring

/-- C10: when `impact_times[i] = next_impact_times[i]`,
`get_current_position` returns the stored position exactly, so the
interpolation divisor `impact_times − next_impact_times` is only used in
the branch where it is nonzero. -/
theorem getCurrentPosition_of_eq (time impactT nextT x y nx ny : ℝ)
    (h : impactT = nextT) :
    getCurrentPosition time impactT nextT x y nx ny = (x, y) := by
  rw [getCurrentPosition, if_pos h]

/-- Witness for `getCurrentPosition_of_eq` at a concrete state. -/
theorem getCurrentPosition_of_eq_witness :
    getCurrentPosition 5 7 7 1 2 3 4 = (1, 2) :=
  getCurrentPosition_of_eq 5 7 7 1 2 3 4 rfl

/-! ## Lemmas: concrete geometry `g0` -/

lemma g0_R : g0.R = 1 := rfl

lemma g0_h : g0.h = 1 / 10 := rfl

lemma gF_flat : gF.flat = true := rfl

lemma circleDistance_g0 : circleDistance g0 = 1 / 2 := rfl

lemma maxPath_g0 : maxPath g0 = 23 / 5 := by
  simp only [maxPath, circleDistance_g0, g0_h, g0_R]
  norm_num

lemma leftCenterX_g0 : leftCenterX g0 = -(5 / 4) := by
  simp only [leftCenterX, circleDistance_g0, g0_R]
  norm_num

lemma rightCenterX_g0 : rightCenterX g0 = 5 / 4 := by
  simp only [rightCenterX, circleDistance_g0, g0_R]
  norm_num

lemma sqrtQ_nonneg : 0 ≤ Real.sqrt (399 / 400) := Real.sqrt_nonneg _

lemma sqrtQ_pos : 0 < Real.sqrt (399 / 400) := Real.sqrt_pos.mpr (by norm_num)

lemma sqrtQ_lt_one : Real.sqrt (399 / 400) < 1 := by
  have h := Real.sqrt_lt_sqrt (by norm_num : (0 : ℝ) ≤ 399 / 400)
    (by norm_num : (399 / 400 : ℝ) < 1)
  simpa using h

lemma bridgeLength_g0 : bridgeLength g0 = 5 / 2 - 2 * Real.sqrt (399 / 400) := by
  have harg : (g0.R ^ 2 - g0.h ^ 2 / 4 : ℝ) = 399 / 400 := by
    rw [g0_R, g0_h]; norm_num
  simp only [bridgeLength, discrepancy, harg]
  norm_num [g0]
  ring

lemma bridgeLength_g0_pos : 0 < bridgeLength g0 := by
  rw [bridgeLength_g0]
  nlinarith [sqrtQ_lt_one]

lemma bridgeLength_g0_lt : bridgeLength g0 < 5 / 2 := by
  rw [bridgeLength_g0]
  nlinarith [sqrtQ_pos]

lemma bridgeLength_g0_ne : bridgeLength g0 ≠ 0 :=
  ne_of_gt bridgeLength_g0_pos

lemma bridgeLength_gF : bridgeLength gF = bridgeLength g0 := rfl

/-! ## C9: the mid-line belongs to both gates -/

/-- C9: a point on the mid-line `x = 0` is in both gates simultaneously:
the sign factor `((int)direction*2 - 1) * x` is `0 ≥ 0` for both sides, so
with a flat gate both `is_in_gate(0, y, LEFT)` and
`is_in_gate(0, y, RIGHT)` hold, and with an arc gate both hold whenever
`(0, y)` is outside both reservoir circles; the direction loop of `update`
then tests such a particle for admission against both gates. -/
theorem midline_in_both_gates (g : Geo) (y : ℝ) :
    (g.flat = true → 0 ≤ bridgeLength g →
      isInGate g 0 y false ∧ isInGate g 0 y true) ∧
    (g.flat = false → ¬isInCircle g 0 y false → ¬isInCircle g 0 y true →
      isInGate g 0 y false ∧ isInGate g 0 y true) := by
  constructor
  · intro hf hL
    simp only [isInGate, hf, if_true]
    norm_num
    linarith
  · intro hf hcl hcr
    simp only [isInGate, hf, if_false]
    exact ⟨⟨by norm_num, hcl⟩, ⟨by norm_num, hcr⟩⟩

/-- Witness for `midline_in_both_gates`: with the test geometry, the
mid-line point `(0, 3)` is in both flat gates, and the origin is in both
arc gates. -/
theorem midline_in_both_gates_witness :
    (isInGate gF 0 3 false ∧ isInGate gF 0 3 true) ∧
      (isInGate g0 0 0 false ∧ isInGate g0 0 0 true) := by
  constructor
  · exact (midline_in_both_gates gF 3).1 gF_flat
      (by rw [bridgeLength_gF]; exact le_of_lt bridgeLength_g0_pos)
  · refine (midline_in_both_gates g0 0).2 rfl ?_ ?_
    · rw [isInCircle, if_pos rfl, leftCenterX_g0, g0_R]
      norm_num
    · rw [isInCircle, if_neg (by simp), rightCenterX_g0, g0_R]
      norm_num

/-! ## C3: the stray-particle repair snaps to the wrong side -/

lemma vecLt_nil_cons (a : ℝ) (l : List ℝ) : vecLt [] (a :: l) := by
  simp [vecLt]

lemma not_vecLt_nil (v : List ℝ) : ¬vecLt v [] := by
  cases v <;> simp [vecLt]

/-- `sgn` applied to any non-empty `std::vector<double>` is `1`: an empty
vector is lexicographically smaller than any non-empty one. -/
lemma sgnVec_cons (a : ℝ) (l : List ℝ) : sgnVec (a :: l) = 1 := by
  rw [sgnVec, if_pos (vecLt_nil_cons a l), if_neg (not_vecLt_nil _)]
  norm_num

lemma not_inDomain_m3 : ¬isInDomain g0 (-3) 0 := by
  have hnb : ¬isInBridge g0 (-3) 0 := by
    rw [isInBridge]
    rintro ⟨h1, -⟩
    rw [show |(-3 : ℝ)| = 3 by norm_num] at h1
    have := bridgeLength_g0_lt
    linarith
  rw [isInDomain, if_neg hnb, if_pos (by norm_num : (-3 : ℝ) < 0),
    isInCircle, if_pos rfl, leftCenterX_g0, g0_R]
  norm_num

/-- C3 (code bug, evaluated): the repair branch of `update` snaps a stray
particle to `(+1, 0) · (D/2 + R)` regardless of the sign of its stray
x-coordinate, because the source applies `sgn` to the whole
`next_x_pos` vector (the `[particle]` subscript is missing in
`sgn(next_x_pos)` at simulation.cpp:151), and any non-empty vector
compares lexicographically greater than the empty `T(0)`.  A particle
astray at `x = -3` (left side, outside the domain) is snapped to
`(5/4, 0)`, the right reservoir centre, not to `-(D/2 + R) = -5/4` as the
claim requires. -/
theorem snap_repair_wrong_side :
    snapRepair g0 [(-3)] [0] 0 = (5 / 4, 0) ∧ ¬isInDomain g0 (-3) 0 ∧
      ((-3 : ℝ) < 0) ∧ ((5 / 4 : ℝ) ≠ -(circleDistance g0 / 2 + g0.R)) := by
  refine ⟨?_, not_inDomain_m3, by norm_num, ?_⟩
  · rw [snapRepair, if_pos]
    · rw [sgnVec_cons, circleDistance_g0, g0_R]
      norm_num
    · exact not_inDomain_m3
  · rw [circleDistance_g0, g0_R]
    norm_num

/-! ## Lemmas: kernel evaluation at the scenario inputs

Two concrete rays through the test geometry `g0`: a particle at the left
reservoir centre heading straight down (`α = -π/2`, scenario (P8) / C8),
and a particle at the origin heading straight up (`α = π/2`, used to
exhibit the `ε`-bias scaling of C4). -/

lemma rayX_down : rayX g0 (-(Real.pi / 2)) = 0 := by
  rw [rayX]; simp

lemma rayY_down : rayY g0 (-(Real.pi / 2)) = -(23 / 5) := by
  rw [rayY, maxPath_g0]; simp

lemma rayX_up : rayX g0 (Real.pi / 2) = 0 := by
  rw [rayX]; simp

lemma rayY_up : rayY g0 (Real.pi / 2) = 23 / 5 := by
  rw [rayY, maxPath_g0]; simp

lemma bDenom_down : bDenom g0 (-(Real.pi / 2)) = 23 / 5 * bridgeLength g0 := by
  rw [bDenom, rayX_down, rayY_down]; ring

lemma bT1_down : bT1 g0 (-(5 / 4)) 0 (-(Real.pi / 2)) = 1 / 92 := by
  rw [bT1, bDenom_down, g0_h]
  rw [div_eq_iff (mul_ne_zero (by norm_num) bridgeLength_g0_ne)]
  ring

lemma bT2_down : bT2 g0 (-(5 / 4)) 0 (-(Real.pi / 2)) = -(1 / 92) := by
  rw [bT2, bDenom_down, g0_h]
  rw [div_eq_iff (mul_ne_zero (by norm_num) bridgeLength_g0_ne)]
  ring

lemma bU1_down_neg : bU1 g0 (-(5 / 4)) 0 (-(Real.pi / 2)) < 0 := by
  rw [bU1, bDenom_down, rayX_down, rayY_down, g0_h]
  apply div_neg_of_neg_of_pos
  · nlinarith [bridgeLength_g0_lt]
  · exact mul_pos (by norm_num) bridgeLength_g0_pos

lemma not_bCond1_down : ¬bCond1 g0 (-(5 / 4)) 0 (-(Real.pi / 2)) := by
  rintro ⟨-, -, h3, -⟩
  exact absurd h3 (not_le.mpr bU1_down_neg)

lemma not_bCond2_down (m : ℝ) : ¬bCond2 g0 (-(5 / 4)) 0 (-(Real.pi / 2)) m := by
  rintro ⟨h1, -⟩
  rw [bT2_down] at h1
  norm_num [EPS] at h1

/-- Straight down from the left centre, the ray misses both rails (the
rail parameter `u` falls outside `[0, 1]` for the bottom rail and the top
rail lies behind). -/
lemma timeToHitBridge_down (a0 : ℝ) :
    timeToHitBridge g0 (-(5 / 4)) 0 (-(Real.pi / 2)) a0 = (23 / 5, a0) := by
  simp only [timeToHitBridge, if_neg not_bCond1_down, if_neg (not_bCond2_down _),
    one_mul, maxPath_g0]

lemma bDenom_up : bDenom g0 (Real.pi / 2) = -(23 / 5) * bridgeLength g0 := by
  rw [bDenom, rayX_up, rayY_up]; ring

lemma bT1_up : bT1 g0 0 0 (Real.pi / 2) = -(1 / 92) := by
  rw [bT1, bDenom_up, g0_h]
  rw [div_eq_iff (mul_ne_zero (by norm_num) bridgeLength_g0_ne)]
  ring

lemma bT2_up : bT2 g0 0 0 (Real.pi / 2) = 1 / 92 := by
  rw [bT2, bDenom_up, g0_h]
  rw [div_eq_iff (mul_ne_zero (by norm_num) bridgeLength_g0_ne)]
  ring

lemma bU2_up : bU2 g0 0 0 (Real.pi / 2) = 1 / 2 := by
  rw [bU2, bDenom_up, rayX_up, rayY_up, g0_h]
  rw [div_eq_iff (mul_ne_zero (by norm_num) bridgeLength_g0_ne)]
  ring

lemma not_bCond1_up : ¬bCond1 g0 0 0 (Real.pi / 2) := by
  rintro ⟨h1, -⟩
  rw [bT1_up] at h1
  norm_num [EPS] at h1

lemma bCond2_up : bCond2 g0 0 0 (Real.pi / 2) 1 := by
  refine ⟨?_, ?_, ?_, ?_⟩
  · rw [bT2_up]; norm_num [EPS]
  · rw [bT2_up]; norm_num
  · rw [bU2_up]; norm_num
  · rw [bU2_up]; norm_num

/-- Straight up from the origin, the accepted top-rail time is
`h/2 − EPS·max_path`, i.e. the exact geometric distance `h/2 = 1/20`
biased by `EPS` scaled by `max_path = 23/5` — not by `EPS` itself. -/
lemma timeToHitBridge_up (a0 : ℝ) :
    timeToHitBridge g0 0 0 (Real.pi / 2) a0 =
      (1 / 20 - 23 / 5 * EPS, -(Real.pi / 2)) := by
  simp only [timeToHitBridge, if_neg not_bCond1_up]
  rw [if_pos bCond2_up, if_pos bCond2_up, bT2_up, maxPath_g0]
  simp only [Prod.mk.injEq]
  exact ⟨by ring, trivial⟩

lemma g0_flat : g0.flat = false := rfl

lemma qA_down : qA g0 (-(Real.pi / 2)) = 529 / 25 := by
  rw [qA, qAx, qAy, rayX_down, rayY_down, g0_R]
  norm_num

lemma qB_left_down : qB g0 (-(5 / 4)) (-(5 / 4)) 0 (-(Real.pi / 2)) = 0 := by
  rw [qB, qPx, qPy, qAx, qAy, rayX_down, rayY_down, g0_R]
  norm_num

lemma qC_left_down : qC g0 (-(5 / 4)) (-(5 / 4)) 0 = -1 := by
  rw [qC, qPx, qPy, g0_R]
  norm_num

lemma qD_left_down : qD g0 (-(5 / 4)) (-(5 / 4)) 0 (-(Real.pi / 2)) = 2116 / 25 := by
  rw [qD, qB_left_down, qA_down, qC_left_down]
  norm_num

lemma sqrt_qD_left : Real.sqrt (2116 / 25) = 46 / 5 := by
  rw [show (2116 / 25 : ℝ) = (46 / 5) ^ 2 by norm_num]
  exact Real.sqrt_sq (by norm_num)

lemma circleIntersections_left_down (t01 t02 : ℝ) :
    circleIntersections g0 (-(5 / 4)) (-(5 / 4)) 0 (-(Real.pi / 2)) t01 t02 =
      (-(5 / 23), 5 / 23) := by
  rw [circleIntersections, if_pos (by rw [qD_left_down]; norm_num)]
  rw [qRoot1, qRoot2, qB_left_down, qD_left_down, sqrt_qD_left, qA_down]
  norm_num

lemma qB_right_down : qB g0 (5 / 4) (-(5 / 4)) 0 (-(Real.pi / 2)) = 0 := by
  rw [qB, qPx, qPy, qAx, qAy, rayX_down, rayY_down, g0_R]
  norm_num

lemma qC_right_down : qC g0 (5 / 4) (-(5 / 4)) 0 = 21 / 4 := by
  rw [qC, qPx, qPy, g0_R]
  norm_num

lemma qD_right_down_neg : qD g0 (5 / 4) (-(5 / 4)) 0 (-(Real.pi / 2)) < 0 := by
  rw [qD, qB_right_down, qA_down, qC_right_down]
  norm_num

lemma circleIntersections_right_down (t01 t02 : ℝ) :
    circleIntersections g0 (5 / 4) (-(5 / 4)) 0 (-(Real.pi / 2)) t01 t02 =
      (t01, t02) := by
  rw [circleIntersections, if_neg (not_le.mpr qD_right_down_neg)]

lemma notInBridge_m54_m1 : ¬isInBridge g0 (-(5 / 4)) (-1) := by
  rw [isInBridge]
  rintro ⟨-, h2⟩
  rw [g0_h] at h2
  norm_num at h2

lemma not_cCond_down_t1 (m : ℝ) :
    ¬cCond g0 (-(5 / 4)) 0 (-(Real.pi / 2)) (-(5 / 23)) m := by
  rintro ⟨⟨h, -⟩, -⟩
  norm_num [EPS] at h

lemma cCond_down_t2 : cCond g0 (-(5 / 4)) 0 (-(Real.pi / 2)) (5 / 23) 1 := by
  refine ⟨⟨by norm_num [EPS], by norm_num⟩, ?_⟩
  have h1 : (-(5 / 4) + 5 / 23 * rayX g0 (-(Real.pi / 2)) : ℝ) = -(5 / 4) := by
    rw [rayX_down]; ring
  have h2 : ((0 : ℝ) + 5 / 23 * rayY g0 (-(Real.pi / 2))) = -1 := by
    rw [rayY_down]; ring
  rw [h1, h2]
  exact notInBridge_m54_m1

/-- Straight down from the left centre, the left-arc kernel accepts the
root `t₂ = R / max_path` and returns `(R − EPS·max_path, atan2 R 0)`. -/
lemma timeToHitCircle_left_down (a0 : ℝ) :
    timeToHitCircle g0 (-(5 / 4)) (-(5 / 4)) 0 (-(Real.pi / 2)) a0 =
      (1 - 23 / 5 * EPS, Real.pi / 2) := by
  simp only [timeToHitCircle, circleIntersections_left_down]
  rw [if_neg (not_cCond_down_t1 1), if_neg (not_cCond_down_t1 1),
    if_pos cCond_down_t2, if_pos cCond_down_t2, maxPath_g0]
  simp only [Prod.mk.injEq]
  constructor
  · ring
  · rw [rayX_down, rayY_down]
    rw [show ((0 : ℝ) - (0 + 5 / 23 * -(23 / 5))) = 1 by ring,
      show ((-(5 / 4) : ℝ) - (-(5 / 4) + 5 / 23 * 0)) = 0 by ring]
    rw [atan2, show (⟨0, 1⟩ : ℂ) = Complex.I from rfl]
    exact Complex.arg_I

lemma not_cCond_down_m1 (m : ℝ) :
    ¬cCond g0 (-(5 / 4)) 0 (-(Real.pi / 2)) (-1) m := by
  rintro ⟨⟨h, -⟩, -⟩
  norm_num [EPS] at h

/-- Straight down from the left centre, the ray misses the right
reservoir (negative discriminant, so the entry values `-1` of `t1`, `t2`
are kept and rejected). -/
lemma timeToHitCircle_right_down (a0 : ℝ) :
    timeToHitCircle g0 (5 / 4) (-(5 / 4)) 0 (-(Real.pi / 2)) a0 = (23 / 5, a0) := by
  simp only [timeToHitCircle, circleIntersections_right_down]
  rw [if_neg (not_cCond_down_m1 1), if_neg (not_cCond_down_m1 1),
    if_neg (not_cCond_down_m1 1), if_neg (not_cCond_down_m1 1), one_mul, maxPath_g0]

lemma not_gCond_down_t1 (m : ℝ) :
    ¬gCond g0 (-(5 / 4)) 0 (-(Real.pi / 2)) (-(5 / 23)) m := by
  rintro ⟨⟨h, -⟩, -⟩
  norm_num [EPS] at h

lemma not_gCond_down_t2 (m : ℝ) :
    ¬gCond g0 (-(5 / 4)) 0 (-(Real.pi / 2)) (5 / 23) m := by
  rintro ⟨-, h⟩
  have h1 : (-(5 / 4) + 5 / 23 * rayX g0 (-(Real.pi / 2)) : ℝ) = -(5 / 4) := by
    rw [rayX_down]; ring
  have h2 : ((0 : ℝ) + 5 / 23 * rayY g0 (-(Real.pi / 2))) = -1 := by
    rw [rayY_down]; ring
  rw [h1, h2] at h
  exact notInBridge_m54_m1 h

/-- Straight down from the left centre, the arc-gate kernel rejects every
root: the only forward intersection `(−5/4, −1)` lies outside the bridge
rectangle, and the right circle contributes only the stale left roots. -/
lemma timeToHitGate_down : timeToHitGate g0 (-(5 / 4)) 0 (-(Real.pi / 2)) = 23 / 5 := by
  rw [timeToHitGate, if_neg (by rw [g0_flat]; exact Bool.false_ne_true)]
  simp only [leftCenterX_g0, rightCenterX_g0, circleIntersections_left_down]
  simp only [circleIntersections_right_down]
  rw [if_neg (not_gCond_down_t1 1), if_neg (not_gCond_down_t2 1),
    if_neg (not_gCond_down_t1 1), if_neg (not_gCond_down_t2 1), one_mul, maxPath_g0]

lemma mDenum_down : mDenum g0 (-(Real.pi / 2)) = 0 := by
  rw [mDenum, rayX_down, rayY_down]
  norm_num

lemma mT_down : mT g0 (-(5 / 4)) 0 (-(Real.pi / 2)) = 0 := by
  rw [mT, mDenum_down]
  ring

lemma not_mCond_down : ¬mCond g0 (-(5 / 4)) 0 (-(Real.pi / 2)) := by
  rintro ⟨h, -⟩
  rw [mT_down] at h
  norm_num [EPS] at h

/-- Straight down from the left centre, the mid-line kernel rejects: the
ray is parallel to the barrier, the C code divides by zero (`±inf`), and
the guarded comparison fails just as it does for the model value `0`. -/
lemma timeToHitMiddle_down : timeToHitMiddle g0 (-(5 / 4)) 0 (-(Real.pi / 2)) = 23 / 5 := by
  rw [timeToHitMiddle, if_neg not_mCond_down, one_mul, maxPath_g0]

lemma ctrunc_five_fourths : ctrunc (5 / 4 : ℝ) = 1 := by
  rw [ctrunc, if_pos (by norm_num)]
  rw [Int.floor_eq_iff]
  constructor <;> norm_num

/-- Reflecting the downward direction `-π/2` in the upward normal `π/2`
gives exactly `π/2`: `fmod(5π/2, 2π) = π/2`. -/
lemma reflect_down : getReflectionAngle (-(Real.pi / 2)) (Real.pi / 2) = Real.pi / 2 := by
  rw [getReflectionAngle, cfmod]
  rw [show 2 * (Real.pi / 2) - -(Real.pi / 2) + Real.pi = 5 / 4 * (2 * Real.pi) by ring]
  rw [mul_div_cancel_right₀ _ (by positivity : (2 * Real.pi) ≠ 0)]
  rw [ctrunc_five_fourths]
  push_cast
  ring

/-- Full evaluation of `compute_next_impact` for a particle at the left
reservoir centre heading straight down, at simulation time `0`: the left
arc wins, the travel time is `R − EPS·max_path = 1 − (23/5)·EPS`, the next
position is `(left_center_x, −R + EPS·max_path)` and the outgoing
direction is exactly `π/2`. -/
lemma computeNextImpact_down :
    computeNextImpact g0 (-(5 / 4)) 0 (-(Real.pi / 2)) 0 =
      some (-(5 / 4), -(1 - 23 / 5 * EPS), 1 - 23 / 5 * EPS, Real.pi / 2) := by
  simp only [computeNextImpact, nextCandidate, leftCenterX_g0, rightCenterX_g0,
    timeToHitBridge_down, timeToHitCircle_left_down, timeToHitCircle_right_down,
    timeToHitGate_down, timeToHitMiddle_down, maxPath_g0, reflect_down]
  norm_num [EPS, Real.cos_neg, Real.cos_pi_div_two, Real.sin_neg, Real.sin_pi_div_two]

/-! ## C8: the straight-down scenario from the left reservoir centre -/

/-- C8 (counterexample): for the particle at the left reservoir centre
heading straight down (test geometry `R = 1`, `D = 1/2`, `h = 1/10`), the
planner's travel time is `R − EPS·max_path = 1 − (23/5)·EPS`, which
differs from `R − EPS` (the documented `ε` bias), and the planned next
position has `y = −R + (23/5)·EPS ≠ −R`; so the impact is not planned "at
next position `(left_center_x, −R)`" as the claim states. -/
theorem left_center_down_cex :
    computeNextImpact g0 (-(5 / 4)) 0 (-(Real.pi / 2)) 0 =
      some (-(5 / 4), -(1 - 23 / 5 * EPS), 1 - 23 / 5 * EPS, Real.pi / 2) ∧
    ((-(1 - 23 / 5 * EPS) : ℝ) ≠ -1) ∧ ((1 - 23 / 5 * EPS : ℝ) ≠ 1 - EPS) :=
  ⟨computeNextImpact_down, by norm_num [EPS], by norm_num [EPS]⟩

/-- C8 (amended): from the left reservoir centre heading straight down,
`compute_next_impact` plans the impact on the left reservoir arc with
travel time `R − EPS·max_path`, at next position
`(left_center_x, −R + EPS·max_path)`, with post-collision direction
exactly `+π/2`. -/
theorem left_center_down_plan :
    computeNextImpact g0 (leftCenterX g0) 0 (-(Real.pi / 2)) 0 =
      some (leftCenterX g0, -(g0.R - EPS * maxPath g0),
        g0.R - EPS * maxPath g0, Real.pi / 2) := by
  rw [leftCenterX_g0, g0_R, maxPath_g0, computeNextImpact_down]
  ring_nf

/-! ## C4: the exact structure of the ε biases -/

lemma bDenom_eq (g : Geo) (α : ℝ) :
    bDenom g α = -(maxPath g * Real.sin α * bridgeLength g) := by
  rw [bDenom, rayX, rayY]
  ring

lemma quadRootPlus (a b c s : ℝ) (ha : a ≠ 0) (hs : s ^ 2 = b * b - 4 * a * c) :
    a * ((-b + s) / (2 * a)) ^ 2 + b * ((-b + s) / (2 * a)) + c = 0 := by
  field_simp
  linear_combination 2 * a ^ 2 * hs

lemma quadRootMinus (a b c s : ℝ) (ha : a ≠ 0) (hs : s ^ 2 = b * b - 4 * a * c) :
    a * ((-b - s) / (2 * a)) ^ 2 + b * ((-b - s) / (2 * a)) + c = 0 := by
  field_simp
  linear_combination 2 * a ^ 2 * hs

/-- A root of the scaled quadratic of `circle_intersections` puts the
impact point on the circle of radius `R` around `(c, 0)`. -/
lemma circle_of_root (g : Geo) (c x y α t : ℝ) (hR : g.R ≠ 0)
    (hroot : qA g α * t ^ 2 + qB g c x y α * t + qC g c x y = 0) :
    (x + t * maxPath g * Real.cos α - c) ^ 2 +
      (y + t * maxPath g * Real.sin α) ^ 2 = g.R ^ 2 := by
  simp only [qA, qB, qC, qPx, qPy, qAx, qAy, rayX, rayY] at hroot
  field_simp at hroot
  linear_combination hroot

/-- An accepted root delivered by `circle_intersections` with the entry
values `-1` lies on the circle of radius `R` around `(c, 0)` at the scaled
parameter `t · max_path`:  acceptance (`EPS < t`) forces a non-negative
discriminant (else the entry value `-1` survives) and a nonzero leading
coefficient (else the division yields `0`). -/
lemma arcRoot_on_circle (g : Geo) (c x y α t : ℝ) (hR : g.R ≠ 0) (h1 : EPS < t)
    (ht : t = (circleIntersections g c x y α (-1) (-1)).1 ∨
      t = (circleIntersections g c x y α (-1) (-1)).2) :
    (x + t * maxPath g * Real.cos α - c) ^ 2 +
      (y + t * maxPath g * Real.sin α) ^ 2 = g.R ^ 2 := by
  have hqD : 0 ≤ qD g c x y α := by
    by_contra hneg
    rcases ht with h | h <;>
      rw [circleIntersections, if_neg hneg] at h <;>
      rw [h] at h1 <;>
      norm_num [EPS] at h1
  have hs : Real.sqrt (qD g c x y α) ^ 2 =
      qB g c x y α * qB g c x y α - 4 * qA g α * qC g c x y := by
    rw [Real.sq_sqrt hqD, qD]
  rcases ht with h | h
  · rw [circleIntersections, if_pos hqD] at h
    have h' : t = qRoot1 g c x y α := h
    have hA : qA g α ≠ 0 := by
      intro h0
      rw [h', qRoot1, h0] at h1
      norm_num [EPS] at h1
    have hroot := quadRootMinus (qA g α) (qB g c x y α) (qC g c x y)
      (Real.sqrt (qD g c x y α)) hA hs
    rw [← qRoot1, ← h'] at hroot
    exact circle_of_root g c x y α t hR hroot
  · rw [circleIntersections, if_pos hqD] at h
    have h' : t = qRoot2 g c x y α := h
    have hA : qA g α ≠ 0 := by
      intro h0
      rw [h', qRoot2, h0] at h1
      norm_num [EPS] at h1
    have hroot := quadRootPlus (qA g α) (qB g c x y α) (qC g c x y)
      (Real.sqrt (qD g c x y α)) hA hs
    rw [← qRoot2, ← h'] at hroot
    exact circle_of_root g c x y α t hR hroot

/-- An accepted root of the RIGHT iteration of the arc-gate loop lies on
one of the two reservoir circles: if the right discriminant is
non-negative the value is a fresh right-circle root, otherwise
`circle_intersections` left the stale LEFT roots in `t1`, `t2`
(simulation.cpp:625-654 declares them once before the loop), and
acceptance forces them to be genuine left-circle roots. -/
lemma arcCarry_on_circle (g : Geo) (x y α t : ℝ) (hR : g.R ≠ 0) (h1 : EPS < t)
    (ht : t = (circleIntersections g (rightCenterX g) x y α
        ((circleIntersections g (leftCenterX g) x y α (-1) (-1)).1)
        ((circleIntersections g (leftCenterX g) x y α (-1) (-1)).2)).1 ∨
      t = (circleIntersections g (rightCenterX g) x y α
        ((circleIntersections g (leftCenterX g) x y α (-1) (-1)).1)
        ((circleIntersections g (leftCenterX g) x y α (-1) (-1)).2)).2) :
    ∃ c, (c = leftCenterX g ∨ c = rightCenterX g) ∧
      (x + t * maxPath g * Real.cos α - c) ^ 2 +
        (y + t * maxPath g * Real.sin α) ^ 2 = g.R ^ 2 := by
  by_cases hqDr : 0 ≤ qD g (rightCenterX g) x y α
  · refine ⟨rightCenterX g, Or.inr rfl, ?_⟩
    apply arcRoot_on_circle g (rightCenterX g) x y α t hR h1
    rcases ht with h | h
    · left
      rw [circleIntersections, if_pos hqDr] at h
      rw [circleIntersections, if_pos hqDr]
      exact h
    · right
      rw [circleIntersections, if_pos hqDr] at h
      rw [circleIntersections, if_pos hqDr]
      exact h
  · refine ⟨leftCenterX g, Or.inl rfl, ?_⟩
    apply arcRoot_on_circle g (leftCenterX g) x y α t hR h1
    rcases ht with h | h
    · left
      rw [circleIntersections, if_neg hqDr] at h
      exact h
    · right
      rw [circleIntersections, if_neg hqDr] at h
      exact h

/-- C4 (amended): the biases of the accepted candidate times are:
`−EPS·max_path` for the bridge rails (the accepted time is the exact
rail-impact distance `(±h/2 − y)/sin α` minus `EPS·max_path`);
`−EPS·max_path` for the reservoir arcs (the accepted time is `τ −
EPS·max_path` where the point at exact distance `τ` lies on the circle);
no bias inside the gate kernel in either mode — a flat gate returns the
exact plane distance `(±L/2 − x)/cos α` and an arc gate returns the exact
distance `τ` to a point on one of the reservoir circles, and
`compute_next_impact` then adds exactly `+EPS` to the gate candidate —
and `+EPS·max_path` inside the mid-line kernel plus a further `+EPS` in
`compute_next_impact`, so the mid-line event is biased twice.  In
particular no accepted reflective time equals "exact − EPS" and the
mid-line time is not "exact + EPS". -/
theorem bias_structure (g : Geo) (x y α a0 : ℝ) :
    ((timeToHitBridge g x y α a0).1 < maxPath g →
      ∃ w, (w = -g.h / 2 ∨ w = g.h / 2) ∧
        (timeToHitBridge g x y α a0).1 =
          (w - y) / Real.sin α - EPS * maxPath g) ∧
    (∀ c, 0 < g.R → (timeToHitCircle g c x y α a0).1 < maxPath g →
      ∃ τ, (timeToHitCircle g c x y α a0).1 = τ - EPS * maxPath g ∧
        (x + τ * Real.cos α - c) ^ 2 + (y + τ * Real.sin α) ^ 2 = g.R ^ 2) ∧
    (timeToHitGate g x y α < maxPath g →
      (g.flat = true →
        ∃ w, (w = -bridgeLength g / 2 ∨ w = bridgeLength g / 2) ∧
          timeToHitGate g x y α = (w - x) / Real.cos α) ∧
      (g.flat = false → 0 < g.R →
        ∃ τ c, (c = leftCenterX g ∨ c = rightCenterX g) ∧
          timeToHitGate g x y α = τ ∧
          (x + τ * Real.cos α - c) ^ 2 + (y + τ * Real.sin α) ^ 2 = g.R ^ 2)) ∧
    (timeToHitMiddle g x y α < maxPath g →
      timeToHitMiddle g x y α = (0 - x) / Real.cos α + EPS * maxPath g ∧
      timeToHitMiddle g x y α + EPS =
        (0 - x) / Real.cos α + EPS * maxPath g + EPS) := by
  refine ⟨?_, ?_, ?_, ?_⟩
  · -- bridge rails
    intro hlt
    simp only [timeToHitBridge] at hlt ⊢
    set m1 : ℝ := if bCond1 g x y α then bT1 g x y α - EPS else 1 with hm1
    by_cases hc2 : bCond2 g x y α m1
    · rw [if_pos hc2] at hlt ⊢
      refine ⟨g.h / 2, Or.inr rfl, ?_⟩
      obtain ⟨h1, -, -, -⟩ := hc2
      have hden : bDenom g α ≠ 0 := by
        intro h0
        rw [bT2, h0, div_zero] at h1
        norm_num [EPS] at h1
      have h3 : maxPath g * Real.sin α * bridgeLength g ≠ 0 := by
        intro h
        exact hden (by rw [bDenom_eq, h, neg_zero])
      obtain ⟨h4, hL⟩ := mul_ne_zero_iff.mp h3
      obtain ⟨hM, hsin⟩ := mul_ne_zero_iff.mp h4
      rw [bT2, bDenom_eq]
      field_simp
      ring
    · rw [if_neg hc2] at hlt ⊢
      by_cases hc1 : bCond1 g x y α
      · rw [hm1, if_pos hc1] at hlt ⊢
        refine ⟨-g.h / 2, Or.inl rfl, ?_⟩
        obtain ⟨h1, -, -, -⟩ := hc1
        have hden : bDenom g α ≠ 0 := by
          intro h0
          rw [bT1, h0, div_zero] at h1
          norm_num [EPS] at h1
        have h3 : maxPath g * Real.sin α * bridgeLength g ≠ 0 := by
          intro h
          exact hden (by rw [bDenom_eq, h, neg_zero])
        obtain ⟨h4, hL⟩ := mul_ne_zero_iff.mp h3
        obtain ⟨hM, hsin⟩ := mul_ne_zero_iff.mp h4
        rw [bT1, bDenom_eq]
        field_simp
        ring
      · rw [hm1, if_neg hc1, one_mul] at hlt
        exact absurd hlt (lt_irrefl _)
  · -- reservoir arcs
    intro c hR hlt
    simp only [timeToHitCircle] at hlt ⊢
    set t1 : ℝ := (circleIntersections g c x y α (-1) (-1)).1 with ht1
    set t2 : ℝ := (circleIntersections g c x y α (-1) (-1)).2 with ht2
    set m1 : ℝ := if cCond g x y α t1 1 then t1 - EPS else 1 with hm1
    by_cases hc2 : cCond g x y α t2 m1
    · rw [if_pos hc2] at hlt ⊢
      obtain ⟨⟨h1, -⟩, -⟩ := hc2
      have hqD : 0 ≤ qD g c x y α := by
        by_contra hneg
        rw [ht2, circleIntersections, if_neg hneg] at h1
        norm_num [EPS] at h1
      have ht2v : t2 = qRoot2 g c x y α := by
        rw [ht2, circleIntersections, if_pos hqD]
      have hA : qA g α ≠ 0 := by
        intro h0
        rw [ht2v, qRoot2, h0] at h1
        norm_num [EPS] at h1
      have hs : Real.sqrt (qD g c x y α) ^ 2 =
          qB g c x y α * qB g c x y α - 4 * qA g α * qC g c x y := by
        rw [Real.sq_sqrt hqD, qD]
      have hroot := quadRootPlus (qA g α) (qB g c x y α) (qC g c x y)
        (Real.sqrt (qD g c x y α)) hA hs
      rw [← qRoot2, ← ht2v] at hroot
      exact ⟨t2 * maxPath g, by ring,
        circle_of_root g c x y α t2 (ne_of_gt hR) hroot⟩
    · rw [if_neg hc2] at hlt ⊢
      by_cases hc1 : cCond g x y α t1 1
      · rw [hm1, if_pos hc1] at hlt ⊢
        obtain ⟨⟨h1, -⟩, -⟩ := hc1
        have hqD : 0 ≤ qD g c x y α := by
          by_contra hneg
          rw [ht1, circleIntersections, if_neg hneg] at h1
          norm_num [EPS] at h1
        have ht1v : t1 = qRoot1 g c x y α := by
          rw [ht1, circleIntersections, if_pos hqD]
        have hA : qA g α ≠ 0 := by
          intro h0
          rw [ht1v, qRoot1, h0] at h1
          norm_num [EPS] at h1
        have hs : Real.sqrt (qD g c x y α) ^ 2 =
            qB g c x y α * qB g c x y α - 4 * qA g α * qC g c x y := by
          rw [Real.sq_sqrt hqD, qD]
        have hroot := quadRootMinus (qA g α) (qB g c x y α) (qC g c x y)
          (Real.sqrt (qD g c x y α)) hA hs
        rw [← qRoot1, ← ht1v] at hroot
        exact ⟨t1 * maxPath g, by ring,
          circle_of_root g c x y α t1 (ne_of_gt hR) hroot⟩
      · rw [hm1, if_neg hc1, one_mul] at hlt
        exact absurd hlt (lt_irrefl _)
  · -- gate, both modes
    intro hlt
    constructor
    · -- flat gate: exact plane distance, no kernel bias
      intro hflat
      simp only [timeToHitGate, hflat, if_true] at hlt ⊢
      set m1 : ℝ := if fCond (gateTL g x α) (maxPath g) then gateTL g x α
        else maxPath g with hm1
      by_cases hc2 : fCond (gateTR g x α) m1
      · rw [if_pos hc2]
        exact ⟨bridgeLength g / 2, Or.inr rfl, by rw [gateTR]⟩
      · rw [if_neg hc2] at hlt ⊢
        by_cases hc1 : fCond (gateTL g x α) (maxPath g)
        · rw [hm1, if_pos hc1]
          exact ⟨-bridgeLength g / 2, Or.inl rfl, by rw [gateTL]⟩
        · rw [hm1, if_neg hc1] at hlt
          exact absurd hlt (lt_irrefl _)
    · -- arc gate: exact distance to a point on a reservoir circle
      intro hflat hR
      simp only [timeToHitGate, hflat, Bool.false_eq_true, if_false] at hlt ⊢
      set tL1 : ℝ := (circleIntersections g (leftCenterX g) x y α (-1) (-1)).1
        with htL1
      set tL2 : ℝ := (circleIntersections g (leftCenterX g) x y α (-1) (-1)).2
        with htL2
      set mA : ℝ := if gCond g x y α tL1 1 then tL1 else 1 with hmA
      set mB : ℝ := if gCond g x y α tL2 mA then tL2 else mA with hmB
      set tR1 : ℝ := (circleIntersections g (rightCenterX g) x y α tL1 tL2).1
        with htR1
      set tR2 : ℝ := (circleIntersections g (rightCenterX g) x y α tL1 tL2).2
        with htR2
      set mC : ℝ := if gCond g x y α tR1 mB then tR1 else mB with hmC
      rw [htL1, htL2] at htR1 htR2
      by_cases hD : gCond g x y α tR2 mC
      · rw [if_pos hD]
        obtain ⟨c, hc, hcirc⟩ := arcCarry_on_circle g x y α tR2 (ne_of_gt hR)
          hD.1.1 (Or.inr htR2)
        exact ⟨tR2 * maxPath g, c, hc, rfl, hcirc⟩
      · rw [if_neg hD] at hlt ⊢
        by_cases hC : gCond g x y α tR1 mB
        · rw [hmC, if_pos hC]
          obtain ⟨c, hc, hcirc⟩ := arcCarry_on_circle g x y α tR1 (ne_of_gt hR)
            hC.1.1 (Or.inl htR1)
          exact ⟨tR1 * maxPath g, c, hc, rfl, hcirc⟩
        · rw [hmC, if_neg hC] at hlt ⊢
          by_cases hB : gCond g x y α tL2 mA
          · rw [hmB, if_pos hB]
            have hcirc := arcRoot_on_circle g (leftCenterX g) x y α tL2
              (ne_of_gt hR) hB.1.1 (Or.inr htL2)
            exact ⟨tL2 * maxPath g, leftCenterX g, Or.inl rfl, rfl, hcirc⟩
          · rw [hmB, if_neg hB] at hlt ⊢
            by_cases hA : gCond g x y α tL1 1
            · rw [hmA, if_pos hA]
              have hcirc := arcRoot_on_circle g (leftCenterX g) x y α tL1
                (ne_of_gt hR) hA.1.1 (Or.inl htL1)
              exact ⟨tL1 * maxPath g, leftCenterX g, Or.inl rfl, rfl, hcirc⟩
            · rw [hmA, if_neg hA, one_mul] at hlt
              exact absurd hlt (lt_irrefl _)
  · -- mid-line
    intro hlt
    simp only [timeToHitMiddle] at hlt ⊢
    by_cases hc : mCond g x y α
    · rw [if_pos hc] at hlt ⊢
      obtain ⟨h1, -, -, -⟩ := hc
      have hrw : rayX g α * g.h - rayY g α * 0 =
          maxPath g * Real.cos α * g.h := by
        rw [rayX]; ring
      have hden : maxPath g * Real.cos α * g.h ≠ 0 := by
        intro h0
        rw [mT, mDenum, hrw, h0, div_zero, mul_zero] at h1
        norm_num [EPS] at h1
      obtain ⟨h4, hh⟩ := mul_ne_zero_iff.mp hden
      obtain ⟨hM, hcos⟩ := mul_ne_zero_iff.mp h4
      have heq : (mT g x y α + EPS) * maxPath g =
          (0 - x) / Real.cos α + EPS * maxPath g := by
        rw [mT, mDenum, hrw]
        field_simp
        ring
      exact ⟨heq, by rw [heq]⟩
    · rw [if_neg hc, one_mul] at hlt
      exact absurd hlt (lt_irrefl _)

/-- C4 (counterexample): from the origin straight up, the exact time to
the top rail is `h/2`, but `time_to_hit_bridge` returns
`h/2 − EPS·max_path`, which differs from the claimed `h/2 − EPS`
(`max_path = 23/5 ≠ 1` in the test geometry). -/
theorem bias_scaled_cex :
    timeToHitBridge g0 0 0 (Real.pi / 2) 0 =
      (g0.h / 2 - EPS * maxPath g0, -(Real.pi / 2)) ∧
      g0.h / 2 - EPS * maxPath g0 ≠ g0.h / 2 - EPS := by
  constructor
  · rw [timeToHitBridge_up, g0_h, maxPath_g0]
    simp only [Prod.mk.injEq]
    exact ⟨by ring, trivial⟩
  · rw [g0_h, maxPath_g0]
    norm_num [EPS]

/-! Evaluation of the arc-gate kernel on a ray it accepts: a particle at
the origin heading left (`α = π`) crosses the left gate arc at the exact
distance `1/4` (the point `(-1/4, 0)` lies on the left circle and inside
the bridge rectangle), with no `EPS` bias inside the kernel. -/

lemma rayX_pi : rayX g0 Real.pi = -(23 / 5) := by
  rw [rayX, maxPath_g0, Real.cos_pi]
  norm_num

lemma rayY_pi : rayY g0 Real.pi = 0 := by
  rw [rayY, Real.sin_pi, mul_zero]

lemma qA_pi : qA g0 Real.pi = 529 / 25 := by
  rw [qA, qAx, qAy, rayX_pi, rayY_pi, g0_R]
  norm_num

lemma qB_left_pi : qB g0 (-(5 / 4)) 0 0 Real.pi = -(23 / 2) := by
  rw [qB, qPx, qPy, qAx, qAy, rayX_pi, rayY_pi, g0_R]
  norm_num

lemma qC_left_pi : qC g0 (-(5 / 4)) 0 0 = 9 / 16 := by
  rw [qC, qPx, qPy, g0_R]
  norm_num

lemma qD_left_pi : qD g0 (-(5 / 4)) 0 0 Real.pi = 2116 / 25 := by
  rw [qD, qB_left_pi, qA_pi, qC_left_pi]
  norm_num

lemma circleIntersections_left_pi (t01 t02 : ℝ) :
    circleIntersections g0 (-(5 / 4)) 0 0 Real.pi t01 t02 = (5 / 92, 45 / 92) := by
  rw [circleIntersections, if_pos (by rw [qD_left_pi]; norm_num)]
  rw [qRoot1, qRoot2, qB_left_pi, qD_left_pi, sqrt_qD_left, qA_pi]
  norm_num

lemma qB_right_pi : qB g0 (5 / 4) 0 0 Real.pi = 23 / 2 := by
  rw [qB, qPx, qPy, qAx, qAy, rayX_pi, rayY_pi, g0_R]
  norm_num

lemma qC_right_pi : qC g0 (5 / 4) 0 0 = 9 / 16 := by
  rw [qC, qPx, qPy, g0_R]
  norm_num

lemma qD_right_pi : qD g0 (5 / 4) 0 0 Real.pi = 2116 / 25 := by
  rw [qD, qB_right_pi, qA_pi, qC_right_pi]
  norm_num

lemma circleIntersections_right_pi (t01 t02 : ℝ) :
    circleIntersections g0 (5 / 4) 0 0 Real.pi t01 t02 =
      (-(45 / 92), -(5 / 92)) := by
  rw [circleIntersections, if_pos (by rw [qD_right_pi]; norm_num)]
  rw [qRoot1, qRoot2, qB_right_pi, qD_right_pi, sqrt_qD_left, qA_pi]
  norm_num

lemma bridgeLength_g0_gt : 1 / 2 < bridgeLength g0 := by
  rw [bridgeLength_g0]
  nlinarith [sqrtQ_lt_one]

lemma inBridge_q14 : isInBridge g0 (-(1 / 4)) 0 := by
  rw [isInBridge, g0_h]
  constructor
  · rw [show |(-(1 / 4) : ℝ)| = 1 / 4 by norm_num]
    linarith [bridgeLength_g0_gt]
  · norm_num

lemma gCond_pi_A : gCond g0 0 0 Real.pi (5 / 92) 1 := by
  refine ⟨⟨by norm_num [EPS], by norm_num⟩, ?_⟩
  have h1 : ((0 : ℝ) + 5 / 92 * rayX g0 Real.pi) = -(1 / 4) := by
    rw [rayX_pi]; ring
  have h2 : ((0 : ℝ) + 5 / 92 * rayY g0 Real.pi) = 0 := by
    rw [rayY_pi]; ring
  rw [h1, h2]
  exact inBridge_q14

lemma not_gCond_pi_B : ¬gCond g0 0 0 Real.pi (45 / 92) (5 / 92) := by
  rintro ⟨⟨-, h⟩, -⟩
  norm_num at h

lemma not_gCond_pi_C (m : ℝ) : ¬gCond g0 0 0 Real.pi (-(45 / 92)) m := by
  rintro ⟨⟨h, -⟩, -⟩
  norm_num [EPS] at h

lemma not_gCond_pi_D (m : ℝ) : ¬gCond g0 0 0 Real.pi (-(5 / 92)) m := by
  rintro ⟨⟨h, -⟩, -⟩
  norm_num [EPS] at h

/-- Heading left from the origin, the arc-gate kernel accepts the left
root `5/92` and returns exactly `(5/92)·max_path = 1/4`, unbiased. -/
lemma timeToHitGate_pi : timeToHitGate g0 0 0 Real.pi = 1 / 4 := by
  rw [timeToHitGate, if_neg (by rw [g0_flat]; exact Bool.false_ne_true)]
  simp only [leftCenterX_g0, rightCenterX_g0, circleIntersections_left_pi,
    circleIntersections_right_pi]
  simp only [if_pos gCond_pi_A, if_neg not_gCond_pi_B,
    if_neg (not_gCond_pi_C _), if_neg (not_gCond_pi_D _)]
  rw [maxPath_g0]
  norm_num

/-- Witness for `bias_structure`: the straight-up ray from the origin has
its accepted top-rail time of the stated biased form, and the leftward
ray from the origin has its accepted arc-gate time exactly on the left
reservoir circle, unbiased. -/
theorem bias_structure_witness :
    ((timeToHitBridge g0 0 0 (Real.pi / 2) 0).1 < maxPath g0 ∧
      ∃ w, (w = -g0.h / 2 ∨ w = g0.h / 2) ∧
        (timeToHitBridge g0 0 0 (Real.pi / 2) 0).1 =
          (w - 0) / Real.sin (Real.pi / 2) - EPS * maxPath g0) ∧
    (timeToHitGate g0 0 0 Real.pi < maxPath g0 ∧ g0.flat = false ∧
      (0 : ℝ) < g0.R ∧
      ∃ τ c, (c = leftCenterX g0 ∨ c = rightCenterX g0) ∧
        timeToHitGate g0 0 0 Real.pi = τ ∧
        (0 + τ * Real.cos Real.pi - c) ^ 2 +
          (0 + τ * Real.sin Real.pi) ^ 2 = g0.R ^ 2) := by
  constructor
  · have hlt : (timeToHitBridge g0 0 0 (Real.pi / 2) 0).1 < maxPath g0 := by
      rw [timeToHitBridge_up, maxPath_g0]
      norm_num [EPS]
    exact ⟨hlt, (bias_structure g0 0 0 (Real.pi / 2) 0).1 hlt⟩
  · have hlt : timeToHitGate g0 0 0 Real.pi < maxPath g0 := by
      rw [timeToHitGate_pi, maxPath_g0]
      norm_num
    have hR : (0 : ℝ) < g0.R := by rw [g0_R]; norm_num
    exact ⟨hlt, rfl, hR,
      ((bias_structure g0 0 0 Real.pi 0).2.2.1 hlt).2 rfl hR⟩

/-! ## C5: kernel positivity and event-time monotonicity -/

lemma EPS_pos : (0 : ℝ) < EPS := by norm_num [EPS]

lemma timeToHitBridge_pos (g : Geo) (x y α a0 : ℝ) (hM : 0 < maxPath g) :
    0 < (timeToHitBridge g x y α a0).1 := by
  have hEPS := EPS_pos
  simp only [timeToHitBridge]
  set m1 : ℝ := if bCond1 g x y α then bT1 g x y α - EPS else 1 with hm1
  have hm1pos : 0 < m1 := by
    rw [hm1]
    split_ifs with h
    · linarith [h.1]
    · norm_num
  split_ifs with h
  · exact mul_pos (by linarith [h.1]) hM
  · exact mul_pos hm1pos hM

lemma timeToHitCircle_pos (g : Geo) (c x y α a0 : ℝ) (hM : 0 < maxPath g) :
    0 < (timeToHitCircle g c x y α a0).1 := by
  have hEPS := EPS_pos
  simp only [timeToHitCircle]
  set t1 : ℝ := (circleIntersections g c x y α (-1) (-1)).1 with ht1
  set t2 : ℝ := (circleIntersections g c x y α (-1) (-1)).2 with ht2
  set m1 : ℝ := if cCond g x y α t1 1 then t1 - EPS else 1 with hm1
  have hm1pos : 0 < m1 := by
    rw [hm1]
    split_ifs with h
    · linarith [h.1.1]
    · norm_num
  split_ifs with h
  · exact mul_pos (by linarith [h.1.1]) hM
  · exact mul_pos hm1pos hM

lemma timeToHitGate_pos (g : Geo) (x y α : ℝ) (hM : 0 < maxPath g) :
    0 < timeToHitGate g x y α := by
  have hEPS := EPS_pos
  by_cases hflat : g.flat = true
  · simp only [timeToHitGate, hflat, if_true]
    set m1 : ℝ := if fCond (gateTL g x α) (maxPath g) then gateTL g x α
      else maxPath g with hm1
    have hm1pos : 0 < m1 := by
      rw [hm1]
      split_ifs with h
      · exact h.1
      · exact hM
    split_ifs with h
    · exact h.1
    · exact hm1pos
  · simp only [timeToHitGate, if_neg hflat]
    set tL1 : ℝ := (circleIntersections g (leftCenterX g) x y α (-1) (-1)).1 with htL1
    set tL2 : ℝ := (circleIntersections g (leftCenterX g) x y α (-1) (-1)).2 with htL2
    set mA : ℝ := if gCond g x y α tL1 1 then tL1 else 1 with hmA
    have hApos : 0 < mA := by
      rw [hmA]
      split_ifs with h
      · linarith [h.1.1]
      · norm_num
    set mB : ℝ := if gCond g x y α tL2 mA then tL2 else mA with hmB
    have hBpos : 0 < mB := by
      rw [hmB]
      split_ifs with h
      · linarith [h.1.1]
      · exact hApos
    set tR1 : ℝ := (circleIntersections g (rightCenterX g) x y α tL1 tL2).1 with htR1
    set tR2 : ℝ := (circleIntersections g (rightCenterX g) x y α tL1 tL2).2 with htR2
    set mC : ℝ := if gCond g x y α tR1 mB then tR1 else mB with hmC
    have hCpos : 0 < mC := by
      rw [hmC]
      split_ifs with h
      · linarith [h.1.1]
      · exact hBpos
    split_ifs with h
    · exact mul_pos (by linarith [h.1.1]) hM
    · exact mul_pos hCpos hM

lemma timeToHitMiddle_pos (g : Geo) (x y α : ℝ) (hM : 0 < maxPath g) :
    0 < timeToHitMiddle g x y α := by
  have hEPS := EPS_pos
  simp only [timeToHitMiddle]
  split_ifs with h
  · exact mul_pos (by linarith [h.1]) hM
  · exact mul_pos one_pos hM

/-- Every travel time selected by `compute_next_impact` is strictly
positive: each accepted candidate exceeds `EPS` (after its bias) and the
no-hit sentinel is `max_path > 0`. -/
lemma nextCandidate_pos (g : Geo) (x y α : ℝ) (hM : 0 < maxPath g) :
    0 < (nextCandidate g x y α).1 := by
  have hEPS := EPS_pos
  have hb := timeToHitBridge_pos g x y α 0 hM
  have hl := timeToHitCircle_pos g (leftCenterX g) x y α
    (timeToHitBridge g x y α 0).2 hM
  have hr := timeToHitCircle_pos g (rightCenterX g) x y α
    (timeToHitCircle g (leftCenterX g) x y α (timeToHitBridge g x y α 0).2).2 hM
  have hg := timeToHitGate_pos g x y α hM
  have hmid := timeToHitMiddle_pos g x y α hM
  simp only [nextCandidate]
  split_ifs <;> linarith

lemma schedStep_mono {n : ℕ} {s s' : Sched n} (hinv : SchedInv s)
    (hst : SchedStep s s') : s.time ≤ s'.time ∧ SchedInv s' := by
  obtain ⟨i, hmin, htime, hre⟩ := hst
  constructor
  · rw [htime]
    exact hinv i
  · intro j
    rcases hre j with h | ⟨d, hd, h⟩
    · rw [h, htime]
      exact hmin j
    · rw [h]
      linarith

/-- C5: the global time is monotonically non-decreasing.  First conjunct:
along any sequence of `update` steps (each popping the particle with the
minimal `next_impact_time`, setting `time` to it, and replanning a subset
of particles to `time + d` with travel time `d > 0` — explosions
included), the time never decreases, provided every planned event starts
at or after the current time (invariant (I2), which the steps preserve).
Second conjunct: every plan produced by `compute_next_impact` is
`time + d` with `d > 0`, grounding the positive-travel-time premise. -/
theorem events_monotone :
    (∀ (n : ℕ) (s s' : Sched n), SchedInv s →
      Relation.ReflTransGen SchedStep s s' → s.time ≤ s'.time) ∧
    (∀ (g : Geo) (x y α t : ℝ) (p : ℝ × ℝ × ℝ × ℝ), 0 < maxPath g →
      computeNextImpact g x y α t = some p → ∃ d, 0 < d ∧ p.2.2.1 = t + d) := by
  constructor
  · intro n s s' hinv hrt
    have key : ∀ {a b : Sched n}, Relation.ReflTransGen SchedStep a b →
        SchedInv a → a.time ≤ b.time ∧ SchedInv b := by
      intro a b hab
      induction hab with
      | refl => exact fun h => ⟨le_refl _, h⟩
      | tail hab hbc ih =>
        intro ha
        obtain ⟨h1, h2⟩ := ih ha
        obtain ⟨h3, h4⟩ := schedStep_mono h2 hbc
        exact ⟨le_trans h1 h3, h4⟩
    exact (key hrt hinv).1
  · intro g x y α t p hM hsome
    rw [computeNextImpact] at hsome
    by_cases hend : (nextCandidate g x y α).1 = maxPath g
    · rw [if_pos hend] at hsome
      exact absurd hsome (by simp)
    · rw [if_neg hend] at hsome
      refine ⟨(nextCandidate g x y α).1, nextCandidate_pos g x y α hM, ?_⟩
      rw [← Option.some.inj hsome]

/-- Witness for `events_monotone`: a one-particle scheduler trace from
time `0` to time `1`, and the concrete straight-down plan of
`compute_next_impact`, whose event time is `0` plus the positive travel
time `1 − (23/5)·EPS`. -/
theorem events_monotone_witness :
    (Sched.mk 0 (fun _ => 1) : Sched 1).time ≤
      (Sched.mk 1 (fun _ => 2) : Sched 1).time ∧
    ∃ d : ℝ, 0 < d ∧
      ((-(5 / 4 : ℝ), -(1 - 23 / 5 * EPS), 1 - 23 / 5 * EPS,
        Real.pi / 2) : ℝ × ℝ × ℝ × ℝ).2.2.1 = 0 + d := by
  constructor
  · refine events_monotone.1 1 ⟨0, fun _ => 1⟩ ⟨1, fun _ => 2⟩
      (fun j => by norm_num) (Relation.ReflTransGen.single ?_)
    exact ⟨⟨0, by norm_num⟩, fun j => le_refl _, rfl,
      fun j => Or.inr ⟨1, one_pos, by norm_num⟩⟩
  · exact events_monotone.2 g0 (-(5 / 4)) 0 (-(Real.pi / 2)) 0 _
      (by rw [maxPath_g0]; norm_num) computeNextImpact_down

end Particular
